import Mathlib

/-!
# Verification of `handparser.py`

A shallow embedding of the poker hand-history parser in `src/handparser.py`
(classes `PokerHand`, `PokerStarsHand`, `FullTiltHand`, `PKRHand` and the
module-level `normalize_*` functions), together with theorems settling the
frozen claims about the module.

Modelling conventions:
* a text line is a `List Char` (the module splits its input on patterns that
  consume every newline, so no line ever contains a `'\n'`);
* Python exceptions are an explicit `PyErr` value; a statement sequence is a
  function `State → State × Except PyErr Unit`, so attributes assigned before
  an exception stay visible, exactly as on a Python object;
* an instance attribute that has never been assigned is `none`; attributes
  that Python can explicitly set to `None` have type `Option (Option _)`
  (`some none` = assigned `None`);
* `int(...)` / `Decimal(...)` are fallible conversions (`ValueError` /
  `InvalidOperation`), `list[i]` uses Python index semantics (negative
  indices wrap once; out of range raises `IndexError`);
* the regular expressions of the module are implemented as concrete
  functions on `List Char`, following leftmost / greedy semantics of `re`
  for the specific patterns involved.
-/

/-- Python exceptions that the module can raise. -/
inductive PyErr where
  | nameError (name : String)
  | attributeError
  | valueError
  | indexError
  | keyError
  | unboundLocalError
  | stopIteration
  | invalidOperation
  deriving DecidableEq, Repr

/-- A line of text (the result of splitting the raw hand history). -/
abbrev Line := List Char

/-- Shorthand turning a string literal into a `Line`. -/
def strL (s : String) : Line := s.data

/-- The apostrophe character (U+0027), written by code point so that no
bare quote mark appears in a string literal of this file. -/
def sqc : Char := '\x27'

/-- The names defined at the top level of `handparser.py` (imports, the
time-zone constants, the five `normalize_*` functions and the four classes).
`TYPES`, `GAMES`, `LIMITS` and `MONEY_TYPES` are *not* among them: the module
uses those names but never defines them. -/
def moduleTopLevelNames : List String :=
  ["re", "ABCMeta", "abstractmethod", "MutableMapping", "OrderedDict",
   "ismethod", "Decimal", "datetime", "locale", "pytz", "ET", "UTC", "CET",
   "normalize_room", "normalize_game_type", "normalize_game",
   "normalize_limit", "normalize_money_type",
   "PokerHand", "PokerStarsHand", "FullTiltHand", "PKRHand"]

/-- Evaluating a global name: `NameError` when the module never defines it.
In `TYPES[key]` and friends CPython resolves the name `TYPES` before
evaluating the subscript, so the `NameError` fires before anything else;
since the name is undefined there is no dictionary whose lookup could be
modelled past this point. -/
def evalUndefinedGlobal (n : String) : Except PyErr Unit :=
  if n ∈ moduleTopLevelNames then .ok () else .error (.nameError n)

/-- Reading an instance attribute: `AttributeError` when never assigned. -/
def getAttr {α : Type} : Option α → Except PyErr α
  | some v => .ok v
  | none => .error .attributeError

/-- Python whitespace characters stripped by `str.strip()`. -/
def pyIsSpace (c : Char) : Bool :=
  c = ' ' || c = '\t' || c = '\n' || c = '\r' || c = '\x0b' || c = '\x0c'

/-- `str.strip()`. -/
def pyStrip (s : Line) : Line :=
  (s.dropWhile pyIsSpace).reverse.dropWhile pyIsSpace |>.reverse

/-- `int(s)` on a decimal string: optional sign after stripped whitespace,
then at least one digit; anything else raises `ValueError`. -/
def pyInt (s : Line) : Except PyErr Int :=
  let t := pyStrip s
  let core : Line → Except PyErr Int := fun ds =>
    if ds.isEmpty || !(ds.all Char.isDigit) then .error .valueError
    else .ok (ds.foldl (fun acc c => acc * 10 + ((c.toNat : Int) - 48)) 0)
  match t with
  | '-' :: ds => do pure (- (← core ds))
  | ds => core ds

/-- `Decimal(s)` on the digit/dot strings produced by the regexes of the module:
digits with at most one dot and at least one digit; otherwise
`InvalidOperation`. -/
def pyDecimal (s : Line) : Except PyErr Rat :=
  let ok := s.any Char.isDigit && s.all (fun c => c.isDigit || c = '.') &&
    (s.filter (fun c => c = '.')).length ≤ 1
  if !ok then .error .invalidOperation
  else
    let intPart := s.takeWhile (fun c => c ≠ '.')
    let fracPart := (s.dropWhile (fun c => c ≠ '.')).drop 1
    let digitsVal : Line → Nat := fun ds =>
      ds.foldl (fun acc c => acc * 10 + (c.toNat - 48)) 0
    .ok ((digitsVal intPart : Rat) +
      (digitsVal fracPart : Rat) / ((10 : Rat) ^ fracPart.length))

/-- The effective index of `l[i]` in Python: a negative index wraps once. -/
def pyWrapIdx {α : Type} (l : List α) (i : Int) : Int :=
  if i < 0 then i + l.length else i

/-- `l[i]` with Python semantics: a negative index wraps once, anything out
of range raises `IndexError`. -/
def pyListGet {α : Type} (l : List α) (i : Int) : Except PyErr α :=
  match l.get? (pyWrapIdx l i).toNat with
  | some a => if 0 ≤ pyWrapIdx l i then .ok a else .error .indexError
  | none => .error .indexError

/-- `l[i] = v` with Python index semantics. -/
def pyListSet {α : Type} (l : List α) (i : Int) (v : α) :
    Except PyErr (List α) :=
  if 0 ≤ pyWrapIdx l i ∧ pyWrapIdx l i < l.length then
    .ok (l.set (pyWrapIdx l i).toNat v)
  else .error .indexError

/-- Clamp an integer slice bound the way Python slices do. -/
def pySliceBound (n : Nat) (i : Int) : Nat :=
  if i < 0 then (max 0 (i + n)).toNat else min i.toNat n

/-- `l[a:b]` (never raises). -/
def pySliceList {α : Type} (l : List α) (a b : Int) : List α :=
  let lo := pySliceBound l.length a
  let hi := pySliceBound l.length b
  (l.take hi).drop lo

/-- `l[a:]`. -/
def pySliceFrom {α : Type} (l : List α) (a : Int) : List α :=
  pySliceList l a l.length

/-- `l[:b]`. -/
def pySliceTo {α : Type} (l : List α) (b : Int) : List α :=
  pySliceList l 0 b

/-- `l.index(x)` : first position of `x`, `ValueError` when absent
(returned as `Option` here; the caller decides whether the `ValueError` is
caught). -/
def pyIndexQ {α : Type} [BEq α] : List α → α → Option Nat
  | [], _ => none
  | a :: t, x => if a == x then some 0 else (pyIndexQ t x).map (· + 1)

/-- `l.index(x, start)` — the first position of `x` at or after `start`
(clamped the way slice bounds are), as an absolute index. -/
def pyIndexFromQ {α : Type} [BEq α] (l : List α) (x : α) (start : Int) :
    Option Nat :=
  let lo := pySliceBound l.length start
  (pyIndexQ (l.drop lo) x).map (· + lo)

/-- Substring test, `needle in hay` on strings. -/
def containsSub (needle hay : Line) : Bool :=
  (List.range (hay.length + 1)).any
    (fun i => needle.isPrefixOf (hay.drop i))

/-- Strip a literal from the front (`none` when it is not there). -/
def dropLit (lit s : Line) : Option Line :=
  if lit.isPrefixOf s then some (s.drop lit.length) else none

/-- Strip a literal from the back. -/
def dropSuffixLit (lit s : Line) : Option Line :=
  if lit.reverse.isPrefixOf s.reverse then
    some (s.take (s.length - lit.length))
  else none

/-- Maximal run of decimal digits at the front. -/
def takeDigits (s : Line) : Line × Line :=
  (s.takeWhile Char.isDigit, s.dropWhile Char.isDigit)

/-- Rightmost decomposition `s = a ++ sep ++ b` whose remainder `b`
satisfies `ok` — the split a greedy `(.*)` before the literal `sep`
settles on. -/
def splitLastAt (sep : Line) (ok : Line → Bool) (s : Line) :
    Option (Line × Line) :=
  (List.range (s.length + 1)).reverse.findSome? fun i =>
    match dropLit sep (s.drop i) with
    | some b => if ok b then some (s.take i, b) else none
    | none => none

/-- Insert into an insertion-ordered map the way a Python (ordered) `dict`
does: an existing key keeps its position and takes the new value, a new key
is appended. -/
def odInsert (ps : List (Line × Rat)) (kv : Line × Rat) :
    List (Line × Rat) :=
  if ps.any (fun p => p.1 == kv.1) then
    ps.map (fun p => if p.1 == kv.1 then (p.1, kv.2) else p)
  else ps ++ [kv]

/-- `OrderedDict(pairs)`. -/
def odFromPairs (ps : List (Line × Rat)) : List (Line × Rat) :=
  ps.foldl odInsert []

/-- Add to the model of a Python `set` (insertion-ordered de-duplicating
accumulator; only membership and cardinality of the real `set` are
meaningful, iteration order is unspecified). -/
def setAdd (ws : List Line) (n : Line) : List Line :=
  if ws.contains n then ws else ws ++ [n]

/-- `str.lower()` (the ASCII case mapping the vocabulary tables need). -/
def pyLower (s : String) : String := ⟨s.data.map Char.toLower⟩

/-- `str.upper()`. -/
def pyUpper (s : String) : String := ⟨s.data.map Char.toUpper⟩

/-- `normalize_room` (lines 25-32). -/
def normalize_room (room : String) : Option String :=
  let val := pyLower room
  if val ∈ ["stars", "pokerstars", "ps"] then some "STARS"
  else if val ∈ ["ftp", "full tilt", "fulltilt", "full tilt poker",
                 "fulltiltpoker"] then some "FTP"
  else if val ∈ ["pkr", "pkr poker"] then some "PKR"
  else none

/-- `normalize_game_type` (lines 35-40). -/
def normalize_game_type (game_type : String) : Option String :=
  let val := pyLower game_type
  if val ∈ ["ring", "cash game", "cash"] then some "CASH"
  else if val ∈ ["tournament", "tour"] then some "TOUR"
  else none

/-- The key `hold` + apostrophe + `em` of the game table. -/
def holdemKey : String := "hold" ++ String.mk [sqc] ++ "em"

/-- `normalize_game` (lines 43-48). -/
def normalize_game (game : String) : Option String :=
  let val := pyLower game
  if val ∈ [holdemKey, "holdem"] then some "HOLDEM"
  else if val ∈ ["omaha"] then some "OMAHA"
  else none

/-- `normalize_limit` (lines 51-58). -/
def normalize_limit (limit : String) : Option String :=
  let value := pyLower limit
  if value ∈ ["no limit", "nl"] then some "NL"
  else if value ∈ ["pot limit", "pl"] then some "PL"
  else if value ∈ ["fix limit", "fl"] then some "FL"
  else none

/-- `normalize_money_type` (lines 61-68): total — the fallback branch
upper-cases the (already lower-cased) input instead of returning nothing. -/
def normalize_money_type (money_type : String) : String :=
  let value := pyLower money_type
  if value ∈ ["real money"] then "R"
  else if value ∈ ["play money"] then "P"
  else pyUpper value

/-- Truthiness of a tuple-of-cards attribute (`None` and the empty tuple are
falsy). -/
def truthyList (o : Option (List Line)) : Bool :=
  match o with
  | none => false
  | some l => !l.isEmpty

/-- Truthiness of a single-card attribute. -/
def truthyStr (o : Option Line) : Bool :=
  match o with
  | none => false
  | some s => !s.isEmpty

/-- The list the `board` property accumulates (lines 172-179): `turn` is
consulted only when `flop` is truthy, `river` only when `turn` is. -/
def boardList (flop : Option (List Line)) (turn river : Option Line) :
    List Line :=
  if truthyList flop then
    flop.getD [] ++
      (if truthyStr turn then
        [turn.getD []] ++
          (if truthyStr river then [river.getD []] else [])
      else [])
  else []

/-- `PokerHand.board` (lines 171-180) on assigned street attributes:
`tuple(board) if board else None`. -/
def pokerBoard (flop : Option (List Line)) (turn river : Option Line) :
    Option (List Line) :=
  let board := boardList flop turn river
  if board.isEmpty then none else some board

/-- Length of the match of `re.compile(r" ?\*\*\* ?\n?|\n")` at the head of
`s` (the split pattern shared by `PokerStarsHand` and `FullTiltHand`,
lines 201 and 367): the first alternative is an optional space, `***`, an
optional space and an optional newline, all greedy; the second is a bare
newline. -/
def starsSplitMatchLen (s : Line) : Option Nat :=
  let tailOpt : Line → Nat := fun t =>
    match t with
    | ' ' :: '\n' :: _ => 2
    | ' ' :: _ => 1
    | '\n' :: _ => 1
    | _ => 0
  match s with
  | ' ' :: '*' :: '*' :: '*' :: rest => some (4 + tailOpt rest)
  | '*' :: '*' :: '*' :: rest => some (3 + tailOpt rest)
  | '\n' :: _ => some 1
  | _ => none

/-- Length of the match of
`re.compile(r"Dealing |\nDealing Cards\n|Taking |Moving |\n")` at the head
of `s` (the `PKRHand` split pattern, line 538); alternatives are tried left
to right. -/
def pkrSplitMatchLen (s : Line) : Option Nat :=
  if (strL "Dealing ").isPrefixOf s then some 8
  else if (strL "\nDealing Cards\n").isPrefixOf s then some 15
  else if (strL "Taking ").isPrefixOf s then some 7
  else if (strL "Moving ").isPrefixOf s then some 7
  else if (strL "\n").isPrefixOf s then some 1
  else none

/-- `re.split`: scan left to right, cutting at every (non-overlapping)
leftmost match; always returns at least one piece.  The recursion is fuelled
(every step consumes at least one character, so fuel `s.length` is enough
and the fuel-exhausted branch is unreachable from `reSplit`). -/
def reSplitGo (matchLen : Line → Option Nat) :
    Nat → Line → Line → List Line
  | _, acc, [] => [acc.reverse]
  | 0, acc, c :: rest => [acc.reverse ++ c :: rest]
  | fuel + 1, acc, c :: rest =>
    match matchLen (c :: rest) with
    | some n => acc.reverse :: reSplitGo matchLen fuel [] (rest.drop (n - 1))
    | none => reSplitGo matchLen fuel (c :: acc) rest

/-- `pattern.split(text)`. -/
def reSplit (matchLen : Line → Option Nat) (s : Line) : List Line :=
  reSplitGo matchLen s.length [] s

/-- The indices of the empty pieces — the `_sections` attribute computed in
each `__init__` (`[ind for ind, elem in enumerate(self._splitted) if not
elem]`), kept as `Int` because the code does arithmetic such as
`self._sections[0] - 1` on them. -/
def emptySections (splitted : List Line) : List Int :=
  ((splitted.enum.filter (fun p => p.2.isEmpty)).map (fun p => (p.1 : Int)))

/-- The attributes a `PokerStarsHand` instance can carry. `Option (Option _)`
fields are those the parser can explicitly set to `None`; plain `Option`
fields are either unset or set to a proper value. -/
structure StarsRec where
  raw : Line
  splitted : List Line
  sections : List Int
  header_parsed : Bool
  parsed : Bool
  game_type : Option Line := none
  sb : Option Rat := none
  bb : Option Rat := none
  buyin : Option Rat := none
  rake : Option Rat := none
  date : Option Line := none
  game : Option Line := none
  limit : Option Line := none
  ident : Option Line := none
  tournament_ident : Option Line := none
  tournament_level : Option Line := none
  currency : Option Line := none
  table_name : Option Line := none
  max_players : Option Int := none
  button_seat : Option Int := none
  button : Option Line := none
  players : Option (List (Line × Rat)) := none
  hero : Option Line := none
  hero_seat : Option Int := none
  hero_hole_cards : Option (Line × Line) := none
  preflop_actions : Option (List Line) := none
  flop : Option (Option (List Line)) := none
  turn : Option (Option Line) := none
  river : Option (Option Line) := none
  flop_actions : Option (Option (List Line)) := none
  turn_actions : Option (Option (List Line)) := none
  river_actions : Option (Option (List Line)) := none
  show_down : Option Bool := none
  total_pot : Option Int := none
  winners : Option (List Line) := none
  deriving Repr, DecidableEq

/-- The attributes of a `FullTiltHand` instance. -/
structure FtpRec where
  raw : Line
  splitted : List Line
  sections : List Int
  header_parsed : Bool
  parsed : Bool
  game_type : Option Line := none
  ident : Option Line := none
  tournament_name : Option Line := none
  tournament_ident : Option Line := none
  table_name : Option Line := none
  limit : Option Line := none
  game : Option Line := none
  sb : Option Rat := none
  bb : Option Rat := none
  date : Option Line := none
  tournament_level : Option (Option Line) := none
  buyin : Option (Option Rat) := none
  rake : Option (Option Rat) := none
  currency : Option (Option Line) := none
  max_players : Option Int := none
  button_seat : Option Int := none
  button : Option Line := none
  players : Option (List (Line × Rat)) := none
  hero : Option Line := none
  hero_seat : Option Int := none
  hero_hole_cards : Option (Line × Line) := none
  preflop_actions : Option (List Line) := none
  flop : Option (Option (List Line)) := none
  turn : Option (Option Line) := none
  river : Option (Option Line) := none
  flop_actions : Option (Option (List Line)) := none
  turn_actions : Option (Option (List Line)) := none
  river_actions : Option (Option (List Line)) := none
  flop_pot : Option (Option Rat) := none
  turn_pot : Option (Option Rat) := none
  river_pot : Option (Option Rat) := none
  flop_num_players : Option (Option Int) := none
  turn_num_players : Option (Option Int) := none
  river_num_players : Option (Option Int) := none
  show_down : Option Bool := none
  total_pot : Option Int := none
  winners : Option (List Line) := none
  deriving Repr, DecidableEq

/-- The attributes of a `PKRHand` instance. -/
structure PkrRec where
  raw : Line
  splitted : List Line
  sections : List Int
  header_parsed : Bool
  parsed : Bool
  table_name : Option Line := none
  ident : Option Line := none
  date : Option Line := none
  last_ident : Option Line := none
  game : Option Line := none
  limit : Option Line := none
  game_type : Option Line := none
  money_type : Option Line := none
  sb : Option Rat := none
  bb : Option Rat := none
  buyin : Option Rat := none
  rake : Option Rat := none
  tournament_ident : Option (Option Line) := none
  tournament_name : Option (Option Line) := none
  tournament_level : Option (Option Line) := none
  max_players : Option Int := none
  button_seat : Option Int := none
  button : Option Line := none
  players : Option (List (Line × Rat)) := none
  hero : Option Line := none
  hero_seat : Option Int := none
  hero_hole_cards : Option (Line × Line) := none
  preflop_actions : Option (List Line) := none
  flop : Option (Option (List Line)) := none
  turn : Option (Option Line) := none
  river : Option (Option Line) := none
  flop_actions : Option (Option (List Line)) := none
  turn_actions : Option (Option (List Line)) := none
  river_actions : Option (Option (List Line)) := none
  flop_pot : Option (Option Rat) := none
  turn_pot : Option (Option Rat) := none
  river_pot : Option (Option Rat) := none
  show_down : Option Bool := none
  total_pot : Option Rat := none
  winners : Option (List Line) := none
  deriving Repr, DecidableEq

/-- `PokerHand.__init__` + `PokerStarsHand.__init__` without the optional
call to `parse`: strip the raw text, split it, record the empty sections. -/
def starsInitRec (text : String) : StarsRec :=
  let raw := pyStrip text.data
  let splitted := reSplit starsSplitMatchLen raw
  { raw := raw, splitted := splitted, sections := emptySections splitted,
    header_parsed := false, parsed := false }

/-- `FullTiltHand.__init__` without the optional call to `parse`. -/
def ftpInitRec (text : String) : FtpRec :=
  let raw := pyStrip text.data
  let splitted := reSplit starsSplitMatchLen raw
  { raw := raw, splitted := splitted, sections := emptySections splitted,
    header_parsed := false, parsed := false }

/-- `PKRHand.__init__` without the optional call to `parse`. -/
def pkrInitRec (text : String) : PkrRec :=
  let raw := pyStrip text.data
  let splitted := reSplit pkrSplitMatchLen raw
  { raw := raw, splitted := splitted, sections := emptySections splitted,
    header_parsed := false, parsed := false }

/-- Sequencing of two statement blocks: the second runs only when the first
did not raise; the state reached so far is kept either way. -/
def pstep {σ : Type} (f g : σ → σ × Except PyErr Unit) (s : σ) :
    σ × Except PyErr Unit :=
  match f s with
  | (s1, .ok _) => g s1
  | (s1, .error e) => (s1, .error e)

/-- `int()` applied to a single-digit regex group (always succeeds). -/
def digitToInt (c : Char) : Int := (c.toNat : Int) - 48

/-- `_table_pattern` (line 217):
`^Table '(.*)' (\d)-max Seat #(\d) is the button$`. The tail after the
greedy `(.*)` has fixed length, so the decomposition is unique. -/
def starsTableMatch (s : Line) : Option (Line × Char × Char) := do
  let t1 ← dropLit (strL "Table " ++ [sqc]) s
  let t2 ← dropSuffixLit (strL " is the button") t1
  match t2.reverse with
  | d2 :: rest2 =>
    if !d2.isDigit then none
    else do
      let r3 ← dropLit (strL "-max Seat #").reverse rest2
      match r3 with
      | d1 :: rest4 =>
        if !d1.isDigit then none
        else do
          let r5 ← dropLit ([sqc] ++ strL " ").reverse rest4
          some (r5.reverse, d1, d2)
      | [] => none
  | [] => none

/-- `_seat_pattern` of `PokerStarsHand` (line 218):
`^Seat (\d): (.*) \((\d*) in chips\)$`. The greedy `(.*)` settles on the
rightmost `" ("` that leaves only digits before the literal tail. -/
def starsSeatMatch (s : Line) : Option (Char × Line × Line) := do
  let t1 ← dropLit (strL "Seat ") s
  match t1 with
  | d :: t2 =>
    if !d.isDigit then none
    else do
      let t3 ← dropLit (strL ": ") t2
      let t4 ← dropSuffixLit (strL " in chips)") t3
      let (name, ds) ← splitLastAt (strL " (") (fun b => b.all Char.isDigit) t4
      some (d, name, ds)
  | [] => none

/-- `_hole_cards_pattern` (lines 219 and 383, identical in both rooms):
`^Dealt to (.*) \[(..) (..)\]$`. The tail has fixed length 8. -/
def dealtToMatch (s : Line) : Option (Line × Line × Line) := do
  let t1 ← dropLit (strL "Dealt to ") s
  match t1.reverse with
  | ']' :: c4 :: c3 :: ' ' :: c2 :: c1 :: '[' :: ' ' :: nameRev =>
    some (nameRev.reverse, [c1, c2], [c3, c4])
  | _ => none

/-- `_pot_pattern` of `PokerStarsHand` (line 220):
`^Total pot (\d*) .*\| Rake (\d*)$`; only group 1 is consumed by the
parser. -/
def starsPotMatch (s : Line) : Option Line := do
  let t1 ← dropLit (strL "Total pot ") s
  let (ds, t2) := takeDigits t1
  match t2 with
  | ' ' :: t3 =>
    (splitLastAt (strL "| Rake ") (fun b => b.all Char.isDigit) t3).map
      (fun _ => ds)
  | _ => none

/-- `_board_pattern.findall` (line 224): `(?<=[\[ ])(..)(?=[\] ])` — scan
left to right, a two-character group preceded by `[` or a space and
followed by `]` or a space; matches do not overlap. -/
def starsBoardScan : Option Char → Nat → Line → List Line
  | _, _, [] => []
  | _, 0, _ => []
  | prev, fuel + 1, c1 :: rest1 =>
    match rest1 with
    | c2 :: rest =>
      let behindOk := prev == some '[' || prev == some ' '
      let aheadOk := match rest with
        | c3 :: _ => c3 = ']' || c3 = ' '
        | [] => false
      if behindOk && aheadOk then
        [c1, c2] :: starsBoardScan (some c2) fuel rest
      else starsBoardScan (some c1) fuel rest1
    | [] => []

/-- `_board_pattern.findall(line)` — fuelled scan over the line (one fuel
unit per position, so the fuel-exhausted branch is unreachable). -/
def starsBoardFindall (s : Line) : List Line := starsBoardScan none s.length s

/-- `_winner_pattern` of `PokerStarsHand` (line 221):
`^Seat (\d): (.*) collected \((\d*)\)$`; group 2 (the name) is what the
parser consumes. -/
def starsWinnerMatch (s : Line) : Option Line := do
  let t1 ← dropLit (strL "Seat ") s
  match t1 with
  | d :: t2 =>
    if !d.isDigit then none
    else do
      let t3 ← dropLit (strL ": ") t2
      let t4 ← dropSuffixLit (strL ")") t3
      let (name, _) ←
        splitLastAt (strL " collected (") (fun b => b.all Char.isDigit) t4
      some name
  | [] => none

/-- `_showdown_pattern` (lines 222 and 387, identical in both rooms):
`^Seat (\d): (.*) showed .* and won` — unanchored at the end; the greedy
`(.*)` takes the rightmost `" showed "` that still leaves an
`" and won"` somewhere after it. -/
def showdownWonMatch (s : Line) : Option Line := do
  let t1 ← dropLit (strL "Seat ") s
  match t1 with
  | d :: t2 =>
    if !d.isDigit then none
    else do
      let t3 ← dropLit (strL ": ") t2
      let (name, _) ←
        splitLastAt (strL " showed ")
          (fun b => containsSub (strL " and won") b) t3
      some name
  | [] => none

/-- `PokerHand._init_seats` (lines 186-187). -/
def initSeats (n : Int) : List (Line × Rat) :=
  (List.range n.toNat).map
    (fun i => (strL ("Empty Seat " ++ toString (i + 1)), (0 : Rat)))

/-- `PokerStarsHand.parse_header` (lines 239-254). Line 240 computes the
header regex match — a pure computation whose result is never consumed —
and line 241 (`TYPES[...]` applied to the game_type group) then resolves the global
name `TYPES`, which the module never defines, so a `NameError` is raised
before any attribute is assigned; lines 242-254 (including
`self.header_parsed = True`) are unreachable. -/
def starsParseHeaderStage (r : StarsRec) : StarsRec × Except PyErr Unit :=
  (r, evalUndefinedGlobal "TYPES")

/-- `PokerStarsHand._parse_table` (lines 272-276). -/
def starsParseTableStage (r : StarsRec) : StarsRec × Except PyErr Unit :=
  match pyListGet r.splitted 1 with
  | .error e => (r, .error e)
  | .ok line =>
    match starsTableMatch line with
    | none => (r, .error .attributeError)
    | some (name, d1, d2) =>
      let r := { r with table_name := some name }
      let r := { r with max_players := some (digitToInt d1) }
      ({ r with button_seat := some (digitToInt d2) }, .ok ())

/-- The seat-scanning loop of `PokerStarsHand._parse_seats`
(lines 280-284): walk the lines after the table line, stop at the first
one that is not a seat declaration, store each declared seat at its
(Python-indexed) position. -/
def starsSeatLoop (players : List (Line × Rat)) (lines : List Line) :
    Except PyErr (List (Line × Rat)) :=
  match lines with
  | [] => .ok players
  | line :: rest =>
    match starsSeatMatch line with
    | none => .ok players
    | some (d, name, ds) =>
      match pyInt ds with
      | .error e => .error e
      | .ok stack =>
        match pyListSet players (digitToInt d - 1) (name, (stack : Rat)) with
        | .error e => .error e
        | .ok ps => starsSeatLoop ps rest

/-- The seat list built by `PokerStarsHand._parse_seats` before it is
turned into an `OrderedDict`. -/
def starsSeatList (r : StarsRec) : Except PyErr (List (Line × Rat)) := do
  let mp ← getAttr r.max_players
  starsSeatLoop (initSeats mp) (pySliceFrom r.splitted 2)

/-- `PokerStarsHand._parse_seats` (lines 278-287). -/
def starsParseSeatsStage (r : StarsRec) : StarsRec × Except PyErr Unit :=
  match starsSeatList r with
  | .error e => (r, .error e)
  | .ok players =>
    match (do
        let bs ← getAttr r.button_seat
        pyListGet players (bs - 1)) with
    | .error e => (r, .error e)
    | .ok p =>
      let r := { r with button := some p.1 }
      ({ r with players := some (odFromPairs players) }, .ok ())

/-- `self.players.keys().index(name) + 1` (ValueError when absent). -/
def keysIndexSucc (ps : List (Line × Rat)) (name : Line) :
    Except PyErr Int :=
  match pyIndexQ (ps.map Prod.fst) name with
  | some i => .ok ((i : Int) + 1)
  | none => .error .valueError

/-- `PokerStarsHand._parse_hole_cards` (lines 289-294). -/
def starsParseHoleStage (r : StarsRec) : StarsRec × Except PyErr Unit :=
  match (do
      let s0 ← pyListGet r.sections 0
      pyListGet r.splitted (s0 + 2)) with
  | .error e => (r, .error e)
  | .ok line =>
    match dealtToMatch line with
    | none => (r, .error .attributeError)
    | some (name, c1, c2) =>
      let r := { r with hero := some name }
      match (do
          let ps ← getAttr r.players
          keysIndexSucc ps name) with
      | .error e => (r, .error e)
      | .ok hs =>
        let r := { r with hero_seat := some hs }
        ({ r with hero_hole_cards := some (c1, c2) }, .ok ())

/-- `PokerStarsHand._parse_preflop` (lines 296-299). -/
def starsParsePreflopStage (r : StarsRec) : StarsRec × Except PyErr Unit :=
  match (do
      let s0 ← pyListGet r.sections 0
      let s1 ← pyListGet r.sections 1
      pure (s0, s1)) with
  | .error e => (r, .error e)
  | .ok (s0, s1) =>
    ({ r with preflop_actions := some (pySliceList r.splitted (s0 + 3) s1) },
      .ok ())

/-- The `try` block of `PokerStarsHand._parse_street` (lines 301-309):
`none` means one of the two `list.index` calls raised the `ValueError` the
`except` clause catches; otherwise the result is the `..._actions` value
(`None` for an empty slice). The street-card attribute itself is only
assigned in the `except` branch. -/
def starsStreetCore (splitted : List Line) (streetU : Line) :
    Option (Option (List Line)) :=
  match pyIndexQ splitted streetU with
  | none => none
  | some i =>
    match pyIndexFromQ splitted [] ((i : Int) + 2) with
    | none => none
    | some stop =>
      let acts := pySliceList splitted ((i : Int) + 2) (stop : Int)
      some (if acts.isEmpty then none else some acts)

/-- `self._parse_street` for the flop of `PokerStarsHand`. -/
def starsStreetFlopStage (r : StarsRec) : StarsRec × Except PyErr Unit :=
  match starsStreetCore r.splitted (strL "FLOP") with
  | none => ({ r with flop := some none, flop_actions := some none }, .ok ())
  | some a => ({ r with flop_actions := some a }, .ok ())

/-- `self._parse_street` for the turn of `PokerStarsHand`. -/
def starsStreetTurnStage (r : StarsRec) : StarsRec × Except PyErr Unit :=
  match starsStreetCore r.splitted (strL "TURN") with
  | none => ({ r with turn := some none, turn_actions := some none }, .ok ())
  | some a => ({ r with turn_actions := some a }, .ok ())

/-- `self._parse_street` for the river of `PokerStarsHand`. -/
def starsStreetRiverStage (r : StarsRec) : StarsRec × Except PyErr Unit :=
  match starsStreetCore r.splitted (strL "RIVER") with
  | none =>
    ({ r with river := some none, river_actions := some none }, .ok ())
  | some a => ({ r with river_actions := some a }, .ok ())

/-- `self.show_down`, literal membership of the showdown marker in the
split pieces (line 265). -/
def starsShowDownStage (r : StarsRec) : StarsRec × Except PyErr Unit :=
  ({ r with show_down := some (r.splitted.contains (strL "SHOW DOWN")) },
    .ok ())

/-- `PokerStarsHand._parse_pot` (lines 311-314). -/
def starsParsePotStage (r : StarsRec) : StarsRec × Except PyErr Unit :=
  match (do
      let sL ← pyListGet r.sections (-1)
      pyListGet r.splitted (sL + 2)) with
  | .error e => (r, .error e)
  | .ok line =>
    match starsPotMatch line with
    | none => (r, .error .attributeError)
    | some ds =>
      match pyInt ds with
      | .error e => (r, .error e)
      | .ok n => ({ r with total_pot := some n }, .ok ())

/-- `PokerStarsHand._parse_board` (lines 316-323): when the line after the
pot line does not start with `Board`, the method returns without touching
the street attributes. -/
def starsParseBoardStage (r : StarsRec) : StarsRec × Except PyErr Unit :=
  match (do
      let sL ← pyListGet r.sections (-1)
      pyListGet r.splitted (sL + 3)) with
  | .error e => (r, .error e)
  | .ok line =>
    if !(strL "Board").isPrefixOf line then (r, .ok ())
    else
      let cards := starsBoardFindall line
      let r := { r with
        flop := some (if cards.isEmpty then none else some (cards.take 3)) }
      let r := { r with turn := some (cards.get? 3) }
      ({ r with river := some (cards.get? 4) }, .ok ())

/-- The scanning loop shared verbatim by `PokerStarsHand._parse_winners`
(lines 325-336) and `FullTiltHand._parse_winners` (lines 507-518): with no
showdown only lines containing `collected` are matched against the winner
pattern, with a showdown only lines containing `won` are matched against
the showdown pattern; names accumulate in a `set`. -/
def winnersScan (collectedName wonName : Line → Option Line)
    (showDown : Bool) (ws : List Line) (lines : List Line) :
    Except PyErr (List Line) :=
  match lines with
  | [] => .ok ws
  | ln :: rest =>
    if !showDown && containsSub (strL "collected") ln then
      match collectedName ln with
      | none => .error .attributeError
      | some name => winnersScan collectedName wonName showDown
          (setAdd ws name) rest
    else if showDown && containsSub (strL "won") ln then
      match wonName ln with
      | none => .error .attributeError
      | some name => winnersScan collectedName wonName showDown
          (setAdd ws name) rest
    else winnersScan collectedName wonName showDown ws rest

/-- `PokerStarsHand._parse_winners` (lines 325-336). -/
def starsParseWinnersStage (r : StarsRec) : StarsRec × Except PyErr Unit :=
  match (do
      let sd ← getAttr r.show_down
      let sL ← pyListGet r.sections (-1)
      winnersScan starsWinnerMatch showdownWonMatch sd []
        (pySliceFrom r.splitted (sL + 4))) with
  | .error e => (r, .error e)
  | .ok ws => ({ r with winners := some ws }, .ok ())

/-- The body of `PokerStarsHand.parse` after the inherited header step
(lines 258-270). -/
def starsParseBodyStage : StarsRec → StarsRec × Except PyErr Unit :=
  pstep starsParseTableStage (pstep starsParseSeatsStage
    (pstep starsParseHoleStage (pstep starsParsePreflopStage
      (pstep starsStreetFlopStage (pstep starsStreetTurnStage
        (pstep starsStreetRiverStage (pstep starsShowDownStage
          (pstep starsParsePotStage (pstep starsParseBoardStage
            (pstep starsParseWinnersStage
              (fun r => ({ r with parsed := true }, .ok ()))))))))))))

/-- `PokerHand.parse` header step (lines 165-169): run `parse_header` only
when it has not succeeded before. -/
def starsHeaderGate (r : StarsRec) : StarsRec × Except PyErr Unit :=
  if r.header_parsed then (r, .ok ()) else starsParseHeaderStage r

/-- `PokerStarsHand.parse` (lines 256-270). -/
def starsParse (r : StarsRec) : StarsRec × Except PyErr Unit :=
  pstep starsHeaderGate starsParseBodyStage r

/-- Constructing a `PokerStarsHand` and calling `parse` on it. -/
def starsParseFull (text : String) : StarsRec × Except PyErr Unit :=
  starsParse (starsInitRec text)

/-- `str.replace(',', '')`. -/
def removeCommas (s : Line) : Line := s.filter (fun c => c ≠ ',')

/-- Accumulator loop for `str.split()` with no argument: words are maximal
runs of non-whitespace, empty pieces are dropped. -/
def splitWsGo (acc : Line) (s : Line) : List Line :=
  match s with
  | [] => if acc.isEmpty then [] else [acc.reverse]
  | c :: rest =>
    if pyIsSpace c then
      (if acc.isEmpty then [] else [acc.reverse]) ++ splitWsGo [] rest
    else splitWsGo (c :: acc) rest

/-- `str.split()` with no argument. -/
def pySplitWs (s : Line) : List Line := splitWsGo [] s

/-- `_tournament_pattern` (lines 370-376, `re.match`, so anchored only at
the start): `^Full Tilt Poker Game #(\d*): (.*) \((\d*)\), Table (\d*) - `
returning (hand id digits, tournament name, tournament id digits, table
name digits). The greedy `(.*)` settles on the rightmost `" ("` whose
remainder fits the rest of the pattern. -/
def ftpTournamentMatch (s : Line) : Option (Line × Line × Line × Line) := do
  let t1 ← dropLit (strL "Full Tilt Poker Game #") s
  let (identDs, t2) := takeDigits t1
  let t3 ← dropLit (strL ": ") t2
  let tailOk : Line → Bool := fun b =>
    let (_, b2) := takeDigits b
    match dropLit (strL "), Table ") b2 with
    | none => false
    | some b3 =>
      let (_, b4) := takeDigits b3
      ((strL " - ").isPrefixOf b4)
  let (name, b) ← splitLastAt (strL " (") tailOk t3
  let (tournDs, b2) := takeDigits b
  let b3 ← dropLit (strL "), Table ") b2
  let (tableDs, _) := takeDigits b3
  some (identDs, name, tournDs, tableDs)

/-- `_seat_pattern` of `FullTiltHand` (line 381):
`^Seat (\d): (.*) \(([\d,]*)\)$` — the stack group may contain
thousands-separator commas. -/
def ftpSeatMatch (s : Line) : Option (Char × Line × Line) :=
  match dropLit (strL "Seat ") s with
  | none => none
  | some [] => none
  | some (d :: t2) =>
    if !d.isDigit then none
    else
      match dropLit (strL ": ") t2 with
      | none => none
      | some t3 =>
        match dropSuffixLit (strL ")") t3 with
        | none => none
        | some t4 =>
          match splitLastAt (strL " (")
              (fun b => b.all (fun c => c.isDigit || c = ',')) t4 with
          | none => none
          | some (name, run) => some (d, name, run)

/-- `_button_pattern` (line 382): `^The button is in seat #(\d)$`. -/
def ftpButtonMatch (s : Line) : Option Char := do
  let t1 ← dropLit (strL "The button is in seat #") s
  match t1 with
  | [d] => if d.isDigit then some d else none
  | _ => none

/-- One attempt of `_street_pattern` (line 384) at the head of `s`:
`\[([^\]]*)\] \(Total Pot: (\d*)\, (\d) Players` — the card group is
everything up to the first `]`. -/
def ftpStreetTryAt (s : Line) : Option (Line × Line × Char) :=
  match s with
  | '[' :: rest =>
    let cards := rest.takeWhile (fun c => c ≠ ']')
    let r1 := rest.dropWhile (fun c => c ≠ ']')
    match dropLit (strL "] (Total Pot: ") r1 with
    | none => none
    | some r2 =>
      let (potDs, r3) := takeDigits r2
      match dropLit (strL ", ") r3 with
      | none => none
      | some r4 =>
        match r4 with
        | d :: r5 =>
          if d.isDigit && (strL " Players").isPrefixOf r5 then
            some (cards, potDs, d)
          else none
        | [] => none
  | _ => none

/-- `_street_pattern.search` (used at line 491): leftmost occurrence. -/
def ftpStreetSearch (s : Line) : Option (Line × Line × Char) :=
  (List.range (s.length + 1)).findSome? (fun i => ftpStreetTryAt (s.drop i))

/-- `_pot_pattern` of `FullTiltHand` (line 385), applied to the
comma-stripped pot line: `^Total pot ([\d,]*) .*\| Rake (\d*)$`. -/
def ftpPotMatch (s : Line) : Option Line := do
  let t1 ← dropLit (strL "Total pot ") s
  let run := t1.takeWhile (fun c => c.isDigit || c = ',')
  let t2 := t1.dropWhile (fun c => c.isDigit || c = ',')
  match t2 with
  | ' ' :: t3 =>
    (splitLastAt (strL "| Rake ") (fun b => b.all Char.isDigit) t3).map
      (fun _ => run)
  | _ => none

/-- `_winner_pattern` of `FullTiltHand` (line 386):
`^Seat (\d): (.*) collected \((\d*)\),` — unanchored at the end. -/
def ftpWinnerMatch (s : Line) : Option Line := do
  let t1 ← dropLit (strL "Seat ") s
  match t1 with
  | d :: t2 =>
    if !d.isDigit then none
    else do
      let t3 ← dropLit (strL ": ") t2
      let (name, _) ← splitLastAt (strL " collected (")
        (fun b =>
          let (_, b2) := takeDigits b
          (strL "),").isPrefixOf b2) t3
      some name
  | [] => none

/-- `FullTiltHand.parse_header` (lines 402-425). `self.game_type = 'TOUR'`
(line 406) runs before the first use of the match object, so it is
assigned even when the header does not match; on a match, lines 407-410
assign the identity fields, line 412 computes `_game_pattern.search` (a
pure computation whose result is never consumed), and line 413
(`LIMITS[...]` applied to the limit group) resolves the undefined global `LIMITS`,
raising `NameError`; lines 414-425 (including
`self.header_parsed = True`) are unreachable. -/
def ftpParseHeaderStage (r : FtpRec) : FtpRec × Except PyErr Unit :=
  match pyListGet r.splitted 0 with
  | .error e => (r, .error e)
  | .ok line =>
    let m := ftpTournamentMatch line
    let r := { r with game_type := some (strL "TOUR") }
    match m with
    | none => (r, .error .attributeError)
    | some (identDs, name, tournDs, tableDs) =>
      let r := { r with ident := some identDs }
      let r := { r with tournament_name := some name }
      let r := { r with tournament_ident := some tournDs }
      let r := { r with table_name := some tableDs }
      (r, evalUndefinedGlobal "LIMITS")

/-- The seat-scanning loop of `FullTiltHand._parse_seats` (lines 445-452);
`seat_number` is a local that stays unbound when the very first line is not
a seat declaration. -/
def ftpSeatLoop (players : List (Line × Rat)) (seatNum : Option Int)
    (lines : List Line) :
    Except PyErr (List (Line × Rat) × Option Int) :=
  match lines with
  | [] => .ok (players, seatNum)
  | line :: rest =>
    match ftpSeatMatch line with
    | none => .ok (players, seatNum)
    | some (d, name, run) =>
      let sn := digitToInt d
      match pyInt (removeCommas run) with
      | .error e => .error e
      | .ok stack =>
        match pyListSet players (sn - 1) (name, (stack : Rat)) with
        | .error e => .error e
        | .ok ps => ftpSeatLoop ps (some sn) rest

/-- `FullTiltHand._parse_seats` (lines 442-459): seats are initialised for
9 players, `max_players` is the *last* matched seat number
(`UnboundLocalError` when no line matched), the ordered map is built from
the truncated list, and the button name is read from the *untruncated*
list. -/
def ftpParseSeatsStage (r : FtpRec) : FtpRec × Except PyErr Unit :=
  match ftpSeatLoop (initSeats 9) none (pySliceFrom r.splitted 1) with
  | .error e => (r, .error e)
  | .ok (players, seatNumOpt) =>
    match seatNumOpt with
    | none => (r, .error .unboundLocalError)
    | some mx =>
      let r := { r with max_players := some mx }
      let r := { r with players := some (odFromPairs (pySliceTo players mx)) }
      match (do
          let s0 ← pyListGet r.sections 0
          pyListGet r.splitted (s0 - 1)) with
      | .error e => (r, .error e)
      | .ok bline =>
        match ftpButtonMatch bline with
        | none => (r, .error .attributeError)
        | some d =>
          let r := { r with button_seat := some (digitToInt d) }
          match pyListGet players (digitToInt d - 1) with
          | .error e => (r, .error e)
          | .ok p => ({ r with button := some p.1 }, .ok ())

/-- `FullTiltHand._parse_hole_cards` (lines 461-466, textually the same as
the PokerStars version). -/
def ftpParseHoleStage (r : FtpRec) : FtpRec × Except PyErr Unit :=
  match (do
      let s0 ← pyListGet r.sections 0
      pyListGet r.splitted (s0 + 2)) with
  | .error e => (r, .error e)
  | .ok line =>
    match dealtToMatch line with
    | none => (r, .error .attributeError)
    | some (name, c1, c2) =>
      let r := { r with hero := some name }
      match (do
          let ps ← getAttr r.players
          keysIndexSucc ps name) with
      | .error e => (r, .error e)
      | .ok hs =>
        let r := { r with hero_seat := some hs }
        ({ r with hero_hole_cards := some (c1, c2) }, .ok ())

/-- `FullTiltHand._parse_preflop` (lines 468-471). -/
def ftpParsePreflopStage (r : FtpRec) : FtpRec × Except PyErr Unit :=
  match (do
      let s0 ← pyListGet r.sections 0
      let s1 ← pyListGet r.sections 1
      pure (s0, s1)) with
  | .error e => (r, .error e)
  | .ok (s0, s1) =>
    ({ r with preflop_actions := some (pySliceList r.splitted (s0 + 3) s1) },
      .ok ())

/-- `FullTiltHand._parse_street` for the flop (lines 473-500): the `except`
clause catches only the `ValueError` of `list.index` (street marker
absent); inside the `try`, `_parse_boardline` assigns the street cards,
pot and player count one by one, then the `next(...)` over `_sections`
raises an uncaught `StopIteration` when no later section exists. -/
def ftpStreetFlopStage (r : FtpRec) : FtpRec × Except PyErr Unit :=
  match pyIndexQ r.splitted (strL "FLOP") with
  | none =>
    let r := { r with flop := some none, flop_actions := some none }
    ({ r with flop_pot := some none, flop_num_players := some none }, .ok ())
  | some i0 =>
    let start : Int := (i0 : Int) + 1
    match pyListGet r.splitted start with
    | .error e => (r, .error e)
    | .ok bl =>
      match ftpStreetSearch bl with
      | none => (r, .error .attributeError)
      | some (cards, potDs, numD) =>
        let r := { r with flop := some (some (pySplitWs cards)) }
        match pyDecimal potDs with
        | .error e => (r, .error e)
        | .ok pot =>
          let r := { r with flop_pot := some (some pot) }
          let r := { r with flop_num_players := some (some (digitToInt numD)) }
          match r.sections.find? (fun v => decide (start < v)) with
          | none => (r, .error .stopIteration)
          | some stop =>
            let acts := pySliceList r.splitted (start + 1) stop
            let av := some (if acts.isEmpty then none else some acts)
            ({ r with flop_actions := av }, .ok ())

/-- `FullTiltHand._parse_street` for the turn — as for the flop, but the card
group is stored unsplit (a single card string). -/
def ftpStreetTurnStage (r : FtpRec) : FtpRec × Except PyErr Unit :=
  match pyIndexQ r.splitted (strL "TURN") with
  | none =>
    let r := { r with turn := some none, turn_actions := some none }
    ({ r with turn_pot := some none, turn_num_players := some none }, .ok ())
  | some i0 =>
    let start : Int := (i0 : Int) + 1
    match pyListGet r.splitted start with
    | .error e => (r, .error e)
    | .ok bl =>
      match ftpStreetSearch bl with
      | none => (r, .error .attributeError)
      | some (cards, potDs, numD) =>
        let r := { r with turn := some (some cards) }
        match pyDecimal potDs with
        | .error e => (r, .error e)
        | .ok pot =>
          let r := { r with turn_pot := some (some pot) }
          let r := { r with turn_num_players := some (some (digitToInt numD)) }
          match r.sections.find? (fun v => decide (start < v)) with
          | none => (r, .error .stopIteration)
          | some stop =>
            let acts := pySliceList r.splitted (start + 1) stop
            let av := some (if acts.isEmpty then none else some acts)
            ({ r with turn_actions := av }, .ok ())

/-- `FullTiltHand._parse_street` for the river. -/
def ftpStreetRiverStage (r : FtpRec) : FtpRec × Except PyErr Unit :=
  match pyIndexQ r.splitted (strL "RIVER") with
  | none =>
    let r := { r with river := some none, river_actions := some none }
    ({ r with river_pot := some none, river_num_players := some none }, .ok ())
  | some i0 =>
    let start : Int := (i0 : Int) + 1
    match pyListGet r.splitted start with
    | .error e => (r, .error e)
    | .ok bl =>
      match ftpStreetSearch bl with
      | none => (r, .error .attributeError)
      | some (cards, potDs, numD) =>
        let r := { r with river := some (some cards) }
        match pyDecimal potDs with
        | .error e => (r, .error e)
        | .ok pot =>
          let r := { r with river_pot := some (some pot) }
          let r := { r with river_num_players := some (some (digitToInt numD)) }
          match r.sections.find? (fun v => decide (start < v)) with
          | none => (r, .error .stopIteration)
          | some stop =>
            let acts := pySliceList r.splitted (start + 1) stop
            let av := some (if acts.isEmpty then none else some acts)
            ({ r with river_actions := av }, .ok ())

/-- `self.show_down`, literal membership of the showdown marker in the
split pieces (line 436). -/
def ftpShowDownStage (r : FtpRec) : FtpRec × Except PyErr Unit :=
  ({ r with show_down := some (r.splitted.contains (strL "SHOW DOWN")) },
    .ok ())

/-- `FullTiltHand._parse_pot` (lines 502-505): the match runs on the
comma-stripped pot line. -/
def ftpParsePotStage (r : FtpRec) : FtpRec × Except PyErr Unit :=
  match (do
      let sL ← pyListGet r.sections (-1)
      pyListGet r.splitted (sL + 2)) with
  | .error e => (r, .error e)
  | .ok line =>
    match ftpPotMatch (removeCommas line) with
    | none => (r, .error .attributeError)
    | some ds =>
      match pyInt ds with
      | .error e => (r, .error e)
      | .ok n => ({ r with total_pot := some n }, .ok ())

/-- `FullTiltHand._parse_winners` (lines 507-518). -/
def ftpParseWinnersStage (r : FtpRec) : FtpRec × Except PyErr Unit :=
  match (do
      let sd ← getAttr r.show_down
      let sL ← pyListGet r.sections (-1)
      winnersScan ftpWinnerMatch showdownWonMatch sd []
        (pySliceFrom r.splitted (sL + 4))) with
  | .error e => (r, .error e)
  | .ok ws => ({ r with winners := some ws }, .ok ())

/-- The body of `FullTiltHand.parse` after the inherited header step
(lines 430-440). -/
def ftpParseBodyStage : FtpRec → FtpRec × Except PyErr Unit :=
  pstep ftpParseSeatsStage (pstep ftpParseHoleStage
    (pstep ftpParsePreflopStage (pstep ftpStreetFlopStage
      (pstep ftpStreetTurnStage (pstep ftpStreetRiverStage
        (pstep ftpShowDownStage (pstep ftpParsePotStage
          (pstep ftpParseWinnersStage
            (fun r => ({ r with parsed := true }, .ok ()))))))))))

/-- `PokerHand.parse` header step for `FullTiltHand`. -/
def ftpHeaderGate (r : FtpRec) : FtpRec × Except PyErr Unit :=
  if r.header_parsed then (r, .ok ()) else ftpParseHeaderStage r

/-- `FullTiltHand.parse` (lines 427-440). -/
def ftpParse (r : FtpRec) : FtpRec × Except PyErr Unit :=
  pstep ftpHeaderGate ftpParseBodyStage r

/-- Constructing a `FullTiltHand` and calling `parse` on it. -/
def ftpParseFull (text : String) : FtpRec × Except PyErr Unit :=
  ftpParse (ftpInitRec text)

/-- `int()` applied to a non-empty regex digit group. -/
def digitsToInt (ds : Line) : Int :=
  ds.foldl (fun a c => a * 10 + ((c.toNat : Int) - 48)) 0

/-- `s[0:3:2]` — the module uses it to drop the middle space of a
three-character card group like `A h`. -/
def pyStep2Slice (g : Line) : Line :=
  match g with
  | a :: _ :: c :: _ => [a, c]
  | a :: _ => [a]
  | [] => []

/-- `_seat_pattern` of `PKRHand` (line 541):
`^Seat (\d\d?): (.*) - \$([\d.]*) ?(.*)$`. The greedy `(.*)` name settles
on the rightmost `" - $"` (everything after it fits the rest of the
pattern); the stack group is the maximal digit/dot run after it. -/
def pkrSeatRest (ds t2 : Line) : Option (Line × Line × Line) :=
  match dropLit (strL ": ") t2 with
  | none => none
  | some t3 =>
    match splitLastAt (strL " - $") (fun _ => true) t3 with
    | none => none
    | some (name, b) =>
      some (ds, name, b.takeWhile (fun c => c.isDigit || c = '.'))

def pkrSeatMatch (s : Line) : Option (Line × Line × Line) :=
  match dropLit (strL "Seat ") s with
  | none => none
  | some (d1 :: d2 :: t2) =>
    if d1.isDigit then
      if d2.isDigit then
        match pkrSeatRest [d1, d2] t2 with
        | some g => some g
        | none => pkrSeatRest [d1] (d2 :: t2)
      else pkrSeatRest [d1] (d2 :: t2)
    else none
  | some _ => none

/-- `_dealt_pattern` (line 540): `^\[(. .)\]\[(. .)\] to (.*)$`. -/
def pkrDealtMatch (s : Line) : Option (Line × Line × Line) :=
  match s with
  | '[' :: c1 :: ' ' :: c2 :: ']' :: '[' :: c3 :: ' ' :: c4 :: ']' :: rest =>
    (dropLit (strL " to ") rest).map
      (fun name => ([c1, ' ', c2], [c3, ' ', c4], name))
  | _ => none

/-- `_card_pattern.findall` (line 543): non-overlapping occurrences of
`\[(. .)\]`. -/
def pkrCardScan : Line → List Line
  | '[' :: c1 :: ' ' :: c2 :: ']' :: rest => [c1, ' ', c2] :: pkrCardScan rest
  | _ :: rest => pkrCardScan rest
  | [] => []

/-- `_sizes_pattern` (line 542): `^Pot sizes: \$([\d.]*)$`. -/
def pkrSizesMatch (s : Line) : Option Line := do
  let t1 ← dropLit (strL "Pot sizes: $") s
  if t1.all (fun c => c.isDigit || c = '.') then some t1 else none

/-- `_rake_pattern` (line 544), used with `.match` so anchored at the
start: `Rake of \$([\d.]*) from pot \d$`. -/
def pkrRakeMatch (s : Line) : Option Line := do
  let t1 ← dropLit (strL "Rake of $") s
  let run := t1.takeWhile (fun c => c.isDigit || c = '.')
  let t2 ← dropLit (strL " from pot ")
    (t1.dropWhile (fun c => c.isDigit || c = '.'))
  match t2 with
  | [d] => if d.isDigit then some run else none
  | _ => none

/-- `_win_pattern` (line 545): `^(.*) wins \$([\d.]*) with: ` — unanchored
at the end; returns (winner name, amount digits). -/
def pkrWinMatch (s : Line) : Option (Line × Line) := do
  let tailOk : Line → Bool := fun b =>
    (strL " with: ").isPrefixOf
      (b.dropWhile (fun c => c.isDigit || c = '.'))
  let (name, b) ← splitLastAt (strL " wins $") tailOk s
  some (name, b.takeWhile (fun c => c.isDigit || c = '.'))

/-- `PKRHand.parse_header` (lines 562-581), parameterised by the
`strptime` validity test for the day-month-year-time format of the room (`sOk`; a
failed parse raises `ValueError`).  Lines 563-566 assign `table_name`,
`ident`, `date` and `last_ident` from fixed slices; line 567
(`GAMES[self._splitted[4][11:]]`) then resolves the undefined global
`GAMES`, raising `NameError` before its subscript is evaluated; lines
568-581 are unreachable, and no statement of this method ever sets
`header_parsed`. -/
def pkrParseHeaderStage (sOk : Line → Bool) (r : PkrRec) :
    PkrRec × Except PyErr Unit :=
  match pyListGet r.splitted 0 with
  | .error e => (r, .error e)
  | .ok s0 =>
    let r := { r with table_name := some (s0.drop 6) }
    match pyListGet r.splitted 1 with
    | .error e => (r, .error e)
    | .ok s1 =>
      let r := { r with ident := some (s1.drop 15) }
      match pyListGet r.splitted 2 with
      | .error e => (r, .error e)
      | .ok s2 =>
        if !sOk (s2.drop 20) then (r, .error .valueError)
        else
          let r := { r with date := some (s2.drop 20) }
          match pyListGet r.splitted 3 with
          | .error e => (r, .error e)
          | .ok s3 =>
            let r := { r with last_ident := some (s3.drop 11) }
            (r, evalUndefinedGlobal "GAMES")

/-- The seat-scanning loop of `PKRHand._parse_seats` (lines 598-605). -/
def pkrSeatLoop (players : List (Line × Rat)) (seatNum : Option Int)
    (lines : List Line) :
    Except PyErr (List (Line × Rat) × Option Int) :=
  match lines with
  | [] => .ok (players, seatNum)
  | line :: rest =>
    match pkrSeatMatch line with
    | none => .ok (players, seatNum)
    | some (ds, name, run) =>
      let sn := digitsToInt ds
      match pyDecimal run with
      | .error e => .error e
      | .ok stack =>
        match pyListSet players (sn - 1) (name, stack) with
        | .error e => .error e
        | .ok ps => pkrSeatLoop ps (some sn) rest

/-- `PKRHand._parse_seats` (lines 594-615): ten seats are initialised,
`max_players` is the last matched seat number, the button seat is the
integer in the last two characters of the row after the first section
boundary, and the button name is read from the untruncated seat list. -/
def pkrParseSeatsStage (r : PkrRec) : PkrRec × Except PyErr Unit :=
  match pkrSeatLoop (initSeats 10) none (pySliceFrom r.splitted 10) with
  | .error e => (r, .error e)
  | .ok (players, seatNumOpt) =>
    match seatNumOpt with
    | none => (r, .error .unboundLocalError)
    | some mx =>
      let r := { r with max_players := some mx }
      let r := { r with players := some (odFromPairs (pySliceTo players mx)) }
      match (do
          let s0 ← pyListGet r.sections 0
          pyListGet r.splitted (s0 + 1)) with
      | .error e => (r, .error e)
      | .ok brow =>
        match pyInt (pySliceFrom brow (-2)) with
        | .error e => (r, .error e)
        | .ok bs =>
          let r := { r with button_seat := some bs }
          match pyListGet players (bs - 1) with
          | .error e => (r, .error e)
          | .ok p => ({ r with button := some p.1 }, .ok ())

/-- `PKRHand._parse_hero` (lines 617-626). -/
def pkrParseHeroStage (r : PkrRec) : PkrRec × Except PyErr Unit :=
  match (do
      let s1 ← pyListGet r.sections 1
      pyListGet r.splitted (s1 + 1)) with
  | .error e => (r, .error e)
  | .ok row =>
    match pkrDealtMatch row with
    | none => (r, .error .attributeError)
    | some (g1, g2, name) =>
      let r := { r with
        hero_hole_cards := some (pyStep2Slice g1, pyStep2Slice g2) }
      let r := { r with hero := some name }
      match (do
          let ps ← getAttr r.players
          keysIndexSucc ps name) with
      | .error e => (r, .error e)
      | .ok hs => ({ r with hero_seat := some hs }, .ok ())

/-- `PKRHand._parse_preflop` (lines 628-631): the stop index comes from an
uncaught `list.index` (`ValueError` when there is no later empty piece). -/
def pkrParsePreflopStage (r : PkrRec) : PkrRec × Except PyErr Unit :=
  match pyListGet r.sections 1 with
  | .error e => (r, .error e)
  | .ok s1 =>
    let start := s1 + 2
    match pyIndexFromQ r.splitted [] (start + 1) with
    | none => (r, .error .valueError)
    | some stop =>
      let acts := pySliceList r.splitted start ((stop : Int) - 1)
      ({ r with preflop_actions := some acts }, .ok ())

/-- `PKRHand._parse_street` for the flop (lines 633-652): only `IndexError` is
caught (missing section, missing street line, or `cards[0]` on an empty
match list — the last cannot happen for the flop, whose cards are stored
as a tuple); the `next(...)` over `_sections` raises an uncaught
`StopIteration`, and a non-matching pot-sizes line raises an uncaught
`AttributeError`. -/
def pkrStreetFlopStage (r : PkrRec) : PkrRec × Except PyErr Unit :=
  match pyListGet r.sections 2 with
  | .error _ =>
    let r := { r with flop := some none, flop_actions := some none }
    ({ r with flop_pot := some none }, .ok ())
  | .ok sec =>
    let start := sec + 1
    match pyListGet r.splitted start with
    | .error _ =>
      let r := { r with flop := some none, flop_actions := some none }
      ({ r with flop_pot := some none }, .ok ())
    | .ok streetLine =>
      let cards := (pkrCardScan streetLine).map pyStep2Slice
      let r := { r with flop := some (some cards) }
      match r.sections.find? (fun v => decide (start < v)) with
      | none => (r, .error .stopIteration)
      | some stop =>
        let acts := pySliceList r.splitted (start + 1) (stop - 1)
        let r := { r with flop_actions := some (some acts) }
        match pyListGet r.splitted (start - 2) with
        | .error _ =>
          let r := { r with flop := some none, flop_actions := some none }
          ({ r with flop_pot := some none }, .ok ())
        | .ok sizesLine =>
          match pkrSizesMatch sizesLine with
          | none => (r, .error .attributeError)
          | some run =>
            match pyDecimal run with
            | .error e => (r, .error e)
            | .ok pot => ({ r with flop_pot := some (some pot) }, .ok ())

/-- `PKRHand._parse_street` for the turn: as the flop, but the street value is
`cards[0]`, whose `IndexError` on an empty match list is caught by the
`except` clause. -/
def pkrStreetTurnStage (r : PkrRec) : PkrRec × Except PyErr Unit :=
  match pyListGet r.sections 3 with
  | .error _ =>
    let r := { r with turn := some none, turn_actions := some none }
    ({ r with turn_pot := some none }, .ok ())
  | .ok sec =>
    let start := sec + 1
    match pyListGet r.splitted start with
    | .error _ =>
      let r := { r with turn := some none, turn_actions := some none }
      ({ r with turn_pot := some none }, .ok ())
    | .ok streetLine =>
      match (pkrCardScan streetLine).map pyStep2Slice with
      | [] =>
        let r := { r with turn := some none, turn_actions := some none }
        ({ r with turn_pot := some none }, .ok ())
      | c :: _ =>
        let r := { r with turn := some (some c) }
        match r.sections.find? (fun v => decide (start < v)) with
        | none => (r, .error .stopIteration)
        | some stop =>
          let acts := pySliceList r.splitted (start + 1) (stop - 1)
          let r := { r with turn_actions := some (some acts) }
          match pyListGet r.splitted (start - 2) with
          | .error _ =>
            let r := { r with turn := some none, turn_actions := some none }
            ({ r with turn_pot := some none }, .ok ())
          | .ok sizesLine =>
            match pkrSizesMatch sizesLine with
            | none => (r, .error .attributeError)
            | some run =>
              match pyDecimal run with
              | .error e => (r, .error e)
              | .ok pot => ({ r with turn_pot := some (some pot) }, .ok ())

/-- `PKRHand._parse_street` for the river. -/
def pkrStreetRiverStage (r : PkrRec) : PkrRec × Except PyErr Unit :=
  match pyListGet r.sections 4 with
  | .error _ =>
    let r := { r with river := some none, river_actions := some none }
    ({ r with river_pot := some none }, .ok ())
  | .ok sec =>
    let start := sec + 1
    match pyListGet r.splitted start with
    | .error _ =>
      let r := { r with river := some none, river_actions := some none }
      ({ r with river_pot := some none }, .ok ())
    | .ok streetLine =>
      match (pkrCardScan streetLine).map pyStep2Slice with
      | [] =>
        let r := { r with river := some none, river_actions := some none }
        ({ r with river_pot := some none }, .ok ())
      | c :: _ =>
        let r := { r with river := some (some c) }
        match r.sections.find? (fun v => decide (start < v)) with
        | none => (r, .error .stopIteration)
        | some stop =>
          let acts := pySliceList r.splitted (start + 1) (stop - 1)
          let r := { r with river_actions := some (some acts) }
          match pyListGet r.splitted (start - 2) with
          | .error _ =>
            let r :=
              { r with river := some none, river_actions := some none }
            ({ r with river_pot := some none }, .ok ())
          | .ok sizesLine =>
            match pkrSizesMatch sizesLine with
            | none => (r, .error .attributeError)
            | some run =>
              match pyDecimal run with
              | .error e => (r, .error e)
              | .ok pot => ({ r with river_pot := some (some pot) }, .ok ())

/-- The scanning loop of `PKRHand._parse_showdown` (lines 661-669):
`show_down` is set to `True` on a `shows` line (and never set otherwise);
winner names are *appended to a list* — unlike the other two rooms there
is no de-duplication — and the pot accumulates the won amounts. -/
def pkrShowLoop (sd : Option Bool) (winners : List Line) (total : Rat)
    (lines : List Line) :
    Option Bool × List Line × Rat × Except PyErr Unit :=
  match lines with
  | [] => (sd, winners, total, .ok ())
  | ln :: rest =>
    if containsSub (strL "shows") ln then
      pkrShowLoop (some true) winners total rest
    else if containsSub (strL "wins") ln then
      match pkrWinMatch ln with
      | none => (sd, winners, total, .error .attributeError)
      | some (name, amtDs) =>
        match pyDecimal amtDs with
        | .error e => (sd, winners, total, .error e)
        | .ok amt => pkrShowLoop sd (winners ++ [name]) (total + amt) rest
    else pkrShowLoop sd winners total rest

/-- `PKRHand._parse_showdown` (lines 654-672). -/
def pkrParseShowdownStage (r : PkrRec) : PkrRec × Except PyErr Unit :=
  match pyListGet r.sections (-1) with
  | .error e => (r, .error e)
  | .ok sL =>
    let start := sL + 1
    match pyListGet r.splitted start with
    | .error e => (r, .error e)
    | .ok rakeLine =>
      match pkrRakeMatch rakeLine with
      | none => (r, .error .attributeError)
      | some run =>
        match pyDecimal run with
        | .error e => (r, .error e)
        | .ok rake =>
          let r := { r with rake := some rake }
          match pkrShowLoop r.show_down [] rake
              (pySliceFrom r.splitted start) with
          | (sd, _, _, .error e) => ({ r with show_down := sd }, .error e)
          | (sd, ws, total, .ok _) =>
            let r := { r with show_down := sd }
            let r := { r with winners := some ws }
            ({ r with total_pot := some total }, .ok ())

/-- The body of `PKRHand.parse` after the inherited header step
(lines 586-592); unlike the other rooms it never sets `parsed`. -/
def pkrParseBodyStage : PkrRec → PkrRec × Except PyErr Unit :=
  pstep pkrParseSeatsStage (pstep pkrParseHeroStage
    (pstep pkrParsePreflopStage (pstep pkrStreetFlopStage
      (pstep pkrStreetTurnStage (pstep pkrStreetRiverStage
        pkrParseShowdownStage)))))

/-- `PokerHand.parse` header step for `PKRHand`. -/
def pkrHeaderGate (sOk : Line → Bool) (r : PkrRec) :
    PkrRec × Except PyErr Unit :=
  if r.header_parsed then (r, .ok ()) else pkrParseHeaderStage sOk r

/-- `PKRHand.parse` (lines 583-592). -/
def pkrParse (sOk : Line → Bool) (r : PkrRec) : PkrRec × Except PyErr Unit :=
  pstep (pkrHeaderGate sOk) pkrParseBodyStage r

/-- Constructing a `PKRHand` and calling `parse` on it. -/
def pkrParseFull (sOk : Line → Bool) (text : String) :
    PkrRec × Except PyErr Unit :=
  pkrParse sOk (pkrInitRec text)

/-- Whether a summary line fires a branch of the winner scan: with no
showdown only `collected` lines, with a showdown only `won` lines. -/
def winnerLineFires (showDown : Bool) (ln : Line) : Bool :=
  (!showDown && containsSub (strL "collected") ln) ||
    (showDown && containsSub (strL "won") ln)

/-- The name a line contributes to the winner scan, given the two
per-branch matchers (`none` when the line does not fire a branch; a firing
line whose matcher fails makes the scan raise instead). -/
def winnerNameAt (collectedName wonName : Line → Option Line)
    (showDown : Bool) (ln : Line) : Option Line :=
  if !showDown && containsSub (strL "collected") ln then collectedName ln
  else if showDown && containsSub (strL "won") ln then wonName ln
  else none

/-- The header fields `FullTiltHand.parse_header` assigns when the
tournament pattern matches, in source order. -/
def ftpHeaderFields (r : FtpRec) (ds nm td tb : Line) : FtpRec :=
  let r := { r with game_type := some (strL "TOUR") }
  let r := { r with ident := some ds }
  let r := { r with tournament_name := some nm }
  let r := { r with tournament_ident := some td }
  { r with table_name := some tb }

/-- Number of occurrences of a name in a winners list. -/
def countOcc (p : Line) (ws : List Line) : Nat :=
  (ws.filter (fun w => w == p)).length

/-- The record state after the Full Tilt turn and river street stages run
with neither marker present. -/
def ftpNoTurnRiver (r : FtpRec) : FtpRec :=
  let r := { r with turn := some none, turn_actions := some none }
  let r := { r with turn_pot := some none, turn_num_players := some none }
  let r := { r with river := some none, river_actions := some none }
  { r with river_pot := some none, river_num_players := some none }

/-- The `board` property read over attribute slots: `self.flop` is read
first (`AttributeError` when never assigned); `self.turn` is consulted
only when the flop is truthy and `self.river` only when the turn is, after
which the value is the one `pokerBoard` computes. -/
def boardProp (flop : Option (Option (List Line)))
    (turn river : Option (Option Line)) :
    Except PyErr (Option (List Line)) := do
  let f ← getAttr flop
  if truthyList f then do
    let t ← getAttr turn
    if truthyStr t then do
      let rv ← getAttr river
      pure (pokerBoard f t rv)
    else pure (pokerBoard f t none)
  else pure (pokerBoard f none none)

/-- A one-character string holding the apostrophe. -/
def sqS : String := String.mk [sqc]

/-- A PokerStars hand whose single seat line names the player exactly like
the placeholder of the other seat (`Empty Seat 2`), so the ordered
name-keyed map collapses two seats into one entry. -/
def starsDupText : String :=
  "header\nTable " ++ sqS ++ "T" ++ sqS ++
  " 2-max Seat #1 is the button\nSeat 1: Empty Seat 2 (10 in chips)\n" ++
  "*** HOLE CARDS ***\nDealt to Empty Seat 2 [Ah Kd]\n" ++
  "Empty Seat 2: checks\n*** SUMMARY ***\nTotal pot 20 | Rake 0\n" ++
  "Seat 1: Empty Seat 2 collected (20)"

/-- A PokerStars hand with a showdown marker whose summary holds no
won-style line after the scan start, so winner extraction completes with
an empty collection. -/
def starsEmptyWinText : String :=
  "header\nTable " ++ sqS ++ "T" ++ sqS ++
  " 2-max Seat #1 is the button\nSeat 1: Alice (10 in chips)\n" ++
  "*** HOLE CARDS ***\nDealt to Alice [Ah Kd]\nAlice: checks\n" ++
  "*** SHOW DOWN ***\nAlice: shows [Ah Kd]\n*** SUMMARY ***\n" ++
  "Total pot 20 | Rake 0\nBoard [Ah Kd 5s]"

/-- A PKR showdown section in which the same player wins two pots, giving
two `wins` lines with the same name. -/
def pkrDupText : String :=
  "x\n\nRake of $1 from pot 0\nAlice wins $5.50 with: a pair\n" ++
  "Alice wins $5.50 with: a pair"

/-- A concrete two-seat PokerStars record used to instantiate the seat
invariants. -/
def c3WitRec : StarsRec :=
  { starsInitRec "x" with splitted := [strL "h", strL "t", strL "Seat 1: Alice (10 in chips)", strL "Seat 2: Bob (20 in chips)"], max_players := some 2, button_seat := some 2 }

/-- The seat list `c3WitRec` yields. -/
def c3Ps : List (Line × Rat) := [(strL "Alice", 10), (strL "Bob", 20)]

theorem charLowerUpper (c : Char) : c.toLower.toUpper = c.toUpper := by
  have key : ∀ (n : Nat), n.isValidChar → (Char.ofNat n).toNat = n := by
    intro n h
    unfold Char.ofNat
    rw [dif_pos h]
    show (Char.ofNatAux n h).toNat = n
    simp only [Char.ofNatAux, Char.toNat, UInt32.toNat]
    rfl
  unfold Char.toLower Char.toUpper
  by_cases h1 : c.toNat ≥ 65 ∧ c.toNat ≤ 90
  · rw [if_pos h1]
    have hv : (c.toNat + 32).isValidChar := Or.inl (by omega)
    rw [key _ hv]
    rw [if_pos (by omega : c.toNat + 32 ≥ 97 ∧ c.toNat + 32 ≤ 122)]
    rw [if_neg (by omega : ¬(c.toNat ≥ 97 ∧ c.toNat ≤ 122))]
    have h3 : c.toNat + 32 - 32 = c.toNat := by omega
    rw [h3, Char.ofNat_toNat]
  · rw [if_neg h1]

theorem strLowerUpper (s : String) : pyUpper (pyLower s) = pyUpper s := by
  unfold pyLower pyUpper
  simp only [List.map_map]
  congr 1
  apply List.map_congr_left
  intro c _
  exact charLowerUpper c

theorem pyIndexQ_get {α : Type} [BEq α] [LawfulBEq α] :
    ∀ (l : List α) (x : α) (i : Nat),
    pyIndexQ l x = some i → l.get? i = some x := by
  intro l
  induction l with
  | nil => intro x i h; simp [pyIndexQ] at h
  | cons a t ih =>
    intro x i h
    simp only [pyIndexQ] at h
    by_cases hax : a == x
    · rw [if_pos hax] at h
      cases h
      simp only [List.get?]
      exact congrArg some (eq_of_beq hax)
    · rw [if_neg hax] at h
      rw [Option.map_eq_some'] at h
      obtain ⟨j, hj, hji⟩ := h
      cases hji
      simpa only [List.get?] using ih x j hj

theorem pyIndexQ_eq_none {α : Type} [BEq α] [LawfulBEq α]
    (l : List α) (x : α) (h : x ∉ l) : pyIndexQ l x = none := by
  induction l with
  | nil => rfl
  | cons a t ih =>
    simp only [pyIndexQ]
    have hne : a ≠ x := fun hax => h (hax ▸ List.mem_cons_self a t)
    rw [if_neg (fun hh => hne (eq_of_beq hh))]
    rw [ih (fun hm => h (List.mem_cons_of_mem a hm))]
    rfl

theorem pyListGet_err {α : Type} (l : List α) (i : Int) (e : PyErr)
    (h : pyListGet l i = .error e) : e = .indexError := by
  unfold pyListGet at h
  split at h
  · split at h
    · cases h
    · cases h; rfl
  · cases h; rfl

theorem pyListGet_nonneg_ok {α : Type} (l : List α) (i : Int) (a : α)
    (hi : 0 ≤ i) (h : pyListGet l i = .ok a) : l.get? i.toNat = some a := by
  unfold pyListGet at h
  have hw : pyWrapIdx l i = i := by
    unfold pyWrapIdx
    rw [if_neg (by omega)]
  rw [hw] at h
  split at h
  · next b hb =>
    rw [if_pos hi] at h
    cases h
    exact hb
  · cases h

theorem pyListGet_zero {α : Type} (l : List α) (a : α) (t : List α)
    (h : l = a :: t) : pyListGet l 0 = .ok a := by
  subst h
  rfl

theorem pyListSet_length {α : Type} (l l2 : List α) (i : Int) (v : α)
    (h : pyListSet l i v = .ok l2) : l2.length = l.length := by
  unfold pyListSet at h
  split at h
  · cases h; simp [List.length_set]
  · cases h

theorem pyListSet_nonneg_bound {α : Type} (l l2 : List α) (i : Int) (v : α)
    (hi : 0 ≤ i) (h : pyListSet l i v = .ok l2) : i < l.length := by
  unfold pyListSet at h
  have hw : pyWrapIdx l i = i := by
    unfold pyWrapIdx
    rw [if_neg (by omega)]
  rw [hw] at h
  split at h
  · next hb => omega
  · cases h

theorem initSeats_length (n : Int) : (initSeats n).length = n.toNat := by
  simp [initSeats]

theorem charDigit_toNat (c : Char) (h : c.isDigit = true) :
    48 ≤ c.toNat ∧ c.toNat ≤ 57 := by
  simp only [Char.isDigit, decide_eq_true_eq, Bool.and_eq_true] at h
  exact h

theorem digitToInt_nonneg (c : Char) (h : c.isDigit = true) :
    0 ≤ digitToInt c ∧ digitToInt c ≤ 9 := by
  have h48 := charDigit_toNat c h
  unfold digitToInt
  omega

theorem digitsToInt_nonneg :
    ∀ (ds : Line), ds.all Char.isDigit = true → 0 ≤ digitsToInt ds := by
  intro ds
  induction ds using List.reverseRecOn with
  | nil => intro _; simp [digitsToInt]
  | append_singleton t c ih =>
    intro h
    rw [List.all_append] at h
    obtain ⟨ht, hc⟩ := Bool.and_eq_true_iff.mp h
    have hcd : c.isDigit = true := by simpa using hc
    have h1 := ih ht
    unfold digitsToInt at h1 ⊢
    rw [List.foldl_append]
    simp only [List.foldl]
    have h48 := charDigit_toNat c hcd
    omega

theorem odInsert_of_not_mem (ps : List (Line × Rat)) (kv : Line × Rat)
    (h : ∀ q ∈ ps, q.1 ≠ kv.1) : odInsert ps kv = ps ++ [kv] := by
  unfold odInsert
  rw [if_neg]
  intro hany
  rw [List.any_eq_true] at hany
  obtain ⟨q, hq, hbeq⟩ := hany
  exact h q hq (eq_of_beq hbeq)

theorem foldl_odInsert_eq :
    ∀ (ps acc : List (Line × Rat)),
    ((acc ++ ps).map Prod.fst).Nodup →
    ps.foldl odInsert acc = acc ++ ps := by
  intro ps
  induction ps with
  | nil => intro acc _; simp
  | cons p t ih =>
    intro acc h
    simp only [List.foldl_cons]
    have hmem : ∀ q ∈ acc, q.1 ≠ p.1 := by
      intro q hq heq
      rw [List.map_append, List.nodup_append] at h
      exact h.2.2 (List.mem_map_of_mem Prod.fst hq) (by simp [heq])
    rw [odInsert_of_not_mem acc p hmem, ih]
    · simp
    · simpa [List.append_assoc] using h

theorem odFromPairs_self (ps : List (Line × Rat))
    (h : (ps.map Prod.fst).Nodup) : odFromPairs ps = ps := by
  have h2 := foldl_odInsert_eq ps [] (by simpa using h)
  simpa [odFromPairs] using h2

theorem reSplitGo_ne_nil (f : Line → Option Nat) :
    ∀ (fuel : Nat) (acc s : Line), reSplitGo f fuel acc s ≠ [] := by
  intro fuel
  induction fuel with
  | zero =>
    intro acc s
    cases s with
    | nil => simp [reSplitGo]
    | cons c rest => simp [reSplitGo]
  | succ n ih =>
    intro acc s
    cases s with
    | nil => simp [reSplitGo]
    | cons c rest =>
      rw [reSplitGo]
      cases hf : f (c :: rest) with
      | some k => simp
      | none => simpa using ih (c :: acc) rest

theorem reSplit_ne_nil (f : Line → Option Nat) (s : Line) :
    reSplit f s ≠ [] :=
  reSplitGo_ne_nil f s.length [] s

theorem keysIndexSucc_spec (ps : List (Line × Rat)) (name : Line) (hs : Int)
    (h : keysIndexSucc ps name = .ok hs) :
    1 ≤ hs ∧ (ps.map Prod.fst).get? (hs - 1).toNat = some name := by
  unfold keysIndexSucc at h
  split at h
  · next i hi =>
    cases h
    refine ⟨by omega, ?_⟩
    have h2 := pyIndexQ_get (ps.map Prod.fst) name i hi
    have h3 : ((i : Int) + 1 - 1).toNat = i := by omega
    rw [h3]
    exact h2
  · cases h

theorem starsSeatLoop_length :
    ∀ (lines : List Line) (ps ps2 : List (Line × Rat)),
    starsSeatLoop ps lines = .ok ps2 → ps2.length = ps.length := by
  intro lines
  induction lines with
  | nil =>
    intro ps ps2 h
    simp only [starsSeatLoop] at h
    cases h; rfl
  | cons ln rest ih =>
    intro ps ps2 h
    simp only [starsSeatLoop] at h
    split at h
    · cases h; rfl
    · split at h
      · cases h
      · split at h
        · cases h
        · next ps1 hset =>
          have h1 := ih _ _ h
          have h2 := pyListSet_length _ _ _ _ hset
          omega

theorem starsSeatList_spec (r : StarsRec) (ps : List (Line × Rat))
    (h : starsSeatList r = .ok ps) :
    ∃ mx, r.max_players = some mx ∧ ps.length = mx.toNat := by
  unfold starsSeatList at h
  cases hmp : r.max_players with
  | none => rw [hmp] at h; cases h
  | some mx =>
    rw [hmp] at h
    refine ⟨mx, rfl, ?_⟩
    have h1 := starsSeatLoop_length _ _ _ h
    rw [h1, initSeats_length]

theorem ftpSeatMatch_digit (s : Line) (d : Char) (name run : Line)
    (h : ftpSeatMatch s = some (d, name, run)) : d.isDigit = true := by
  unfold ftpSeatMatch at h
  split at h
  · cases h
  · cases h
  · split at h
    · cases h
    · next hnd =>
      split at h
      · cases h
      · split at h
        · cases h
        · split at h
          · cases h
          · cases h
            simpa using hnd

theorem pkrSeatRest_fst (ds t2 ds2 name run : Line)
    (h : pkrSeatRest ds t2 = some (ds2, name, run)) : ds2 = ds := by
  unfold pkrSeatRest at h
  split at h
  · cases h
  · split at h
    · cases h
    · cases h
      rfl

theorem pkrSeatMatch_digits (s ds name run : Line)
    (h : pkrSeatMatch s = some (ds, name, run)) :
    ds.all Char.isDigit = true := by
  unfold pkrSeatMatch at h
  split at h
  · cases h
  · next d1 d2 t2 =>
    split at h
    · next hd1 =>
      split at h
      · next hd2 =>
        split at h
        · next g hg =>
          cases h
          have hfst := pkrSeatRest_fst _ _ _ _ _ hg
          subst hfst
          simp [hd1, hd2]
        · next hg =>
          have hfst := pkrSeatRest_fst _ _ _ _ _ h
          subst hfst
          simp [hd1]
      · next hd2 =>
        have hfst := pkrSeatRest_fst _ _ _ _ _ h
        subst hfst
        simp [hd1]
    · cases h
  · cases h

theorem ftpSeatLoop_spec :
    ∀ (lines : List Line) (ps : List (Line × Rat)) (sn0 : Option Int)
      (ps2 : List (Line × Rat)) (sn2 : Option Int),
    ftpSeatLoop ps sn0 lines = .ok (ps2, sn2) →
    ps2.length = ps.length ∧
      (∀ m, sn2 = some m → sn0 = some m ∨ (0 ≤ m ∧ m ≤ ps.length)) := by
  intro lines
  induction lines with
  | nil =>
    intro ps sn0 ps2 sn2 h
    simp only [ftpSeatLoop] at h
    cases h
    exact ⟨rfl, fun m hm => Or.inl hm⟩
  | cons ln rest ih =>
    intro ps sn0 ps2 sn2 h
    simp only [ftpSeatLoop] at h
    split at h
    · cases h
      exact ⟨rfl, fun m hm => Or.inl hm⟩
    · next d name run hmatch =>
      split at h
      · cases h
      · split at h
        · cases h
        · next ps1 hset =>
          obtain ⟨hlen, hsn⟩ := ih _ _ _ _ h
          have hlen2 := pyListSet_length _ _ _ _ hset
          have hd := ftpSeatMatch_digit _ _ _ _ hmatch
          have hdg := digitToInt_nonneg _ hd
          refine ⟨by omega, ?_⟩
          intro m hm
          rcases hsn m hm with heq | hb
          · right
            cases heq
            by_cases hz : digitToInt d = 0
            · constructor
              · omega
              · have : (0 : Int) ≤ ps.length := by positivity
                omega
            · have hbound := pyListSet_nonneg_bound _ _ _ _
                (by omega : (0:Int) ≤ digitToInt d - 1) hset
              omega
          · right; omega

theorem pkrSeatLoop_spec :
    ∀ (lines : List Line) (ps : List (Line × Rat)) (sn0 : Option Int)
      (ps2 : List (Line × Rat)) (sn2 : Option Int),
    pkrSeatLoop ps sn0 lines = .ok (ps2, sn2) →
    ps2.length = ps.length ∧
      (∀ m, sn2 = some m → sn0 = some m ∨ (0 ≤ m ∧ m ≤ ps.length)) := by
  intro lines
  induction lines with
  | nil =>
    intro ps sn0 ps2 sn2 h
    simp only [pkrSeatLoop] at h
    cases h
    exact ⟨rfl, fun m hm => Or.inl hm⟩
  | cons ln rest ih =>
    intro ps sn0 ps2 sn2 h
    simp only [pkrSeatLoop] at h
    split at h
    · cases h
      exact ⟨rfl, fun m hm => Or.inl hm⟩
    · next ds name run hmatch =>
      split at h
      · cases h
      · split at h
        · cases h
        · next ps1 hset =>
          obtain ⟨hlen, hsn⟩ := ih _ _ _ _ h
          have hlen2 := pyListSet_length _ _ _ _ hset
          have hd := pkrSeatMatch_digits _ _ _ _ hmatch
          have hdg := digitsToInt_nonneg _ hd
          refine ⟨by omega, ?_⟩
          intro m hm
          rcases hsn m hm with heq | hb
          · right
            cases heq
            by_cases hz : digitsToInt ds = 0
            · constructor
              · omega
              · have : (0 : Int) ≤ ps.length := by positivity
                omega
            · have hbound := pyListSet_nonneg_bound _ _ _ _
                (by omega : (0:Int) ≤ digitsToInt ds - 1) hset
              omega
          · right; omega

theorem setAdd_sub (ws : List Line) (n : Line) : ws ⊆ setAdd ws n := by
  unfold setAdd
  split
  · exact fun a ha => ha
  · exact fun a ha => List.mem_append_left _ ha

theorem setAdd_mem (ws : List Line) (n : Line) : n ∈ setAdd ws n := by
  unfold setAdd
  split
  · next hc => simpa using hc
  · exact List.mem_append_right _ (List.mem_singleton.mpr rfl)

theorem setAdd_mem_elim (ws : List Line) (n p : Line)
    (h : p ∈ setAdd ws n) : p ∈ ws ∨ p = n := by
  unfold setAdd at h
  split at h
  · exact Or.inl h
  · rcases List.mem_append.mp h with h1 | h1
    · exact Or.inl h1
    · exact Or.inr (List.mem_singleton.mp h1)

theorem setAdd_nodup (ws : List Line) (n : Line) (h : ws.Nodup) :
    (setAdd ws n).Nodup := by
  unfold setAdd
  split
  · exact h
  · next hc =>
    have hnot : n ∉ ws := fun hm => hc (by simpa using hm)
    simp [List.nodup_append, h, hnot]

theorem setAdd_ne_nil (ws : List Line) (n : Line) : setAdd ws n ≠ [] := by
  unfold setAdd
  split
  · next hc =>
    intro hnil
    subst hnil
    simp at hc
  · simp

theorem winnersScan_sub (cm wm : Line → Option Line) (sd : Bool) :
    ∀ (lines : List Line) (ws0 ws : List Line),
    winnersScan cm wm sd ws0 lines = .ok ws → ws0 ⊆ ws := by
  intro lines
  induction lines with
  | nil =>
    intro ws0 ws h
    simp only [winnersScan] at h
    cases h
    exact fun a ha => ha
  | cons ln rest ih =>
    intro ws0 ws h
    simp only [winnersScan] at h
    split at h
    · split at h
      · cases h
      · exact fun a ha => ih _ _ h (setAdd_sub _ _ ha)
    · split at h
      · split at h
        · cases h
        · exact fun a ha => ih _ _ h (setAdd_sub _ _ ha)
      · exact ih _ _ h

theorem winnersScan_nodup (cm wm : Line → Option Line) (sd : Bool) :
    ∀ (lines : List Line) (ws0 ws : List Line),
    winnersScan cm wm sd ws0 lines = .ok ws → ws0.Nodup → ws.Nodup := by
  intro lines
  induction lines with
  | nil =>
    intro ws0 ws h h0
    simp only [winnersScan] at h
    cases h
    exact h0
  | cons ln rest ih =>
    intro ws0 ws h h0
    simp only [winnersScan] at h
    split at h
    · split at h
      · cases h
      · exact ih _ _ h (setAdd_nodup _ _ h0)
    · split at h
      · split at h
        · cases h
        · exact ih _ _ h (setAdd_nodup _ _ h0)
      · exact ih _ _ h h0

theorem winnersScan_mem_of_line (cm wm : Line → Option Line) (sd : Bool) :
    ∀ (lines : List Line) (ws0 ws : List Line) (ln : Line) (p : Line),
    winnersScan cm wm sd ws0 lines = .ok ws → ln ∈ lines →
    winnerNameAt cm wm sd ln = some p → p ∈ ws := by
  intro lines
  induction lines with
  | nil => intro ws0 ws ln p _ hmem; cases hmem
  | cons ln0 rest ih =>
    intro ws0 ws ln p h hmem hname
    simp only [winnersScan] at h
    rcases List.mem_cons.mp hmem with heq | hmem2
    · subst heq
      unfold winnerNameAt at hname
      split at h
      · next hcond =>
        rw [if_pos hcond] at hname
        split at h
        · cases h
        · next name hcm =>
          rw [hcm] at hname
          cases hname
          exact winnersScan_sub cm wm sd rest _ _ h (setAdd_mem _ _)
      · next hcond =>
        rw [if_neg hcond] at hname
        split at h
        · next hcond2 =>
          rw [if_pos hcond2] at hname
          split at h
          · cases h
          · next name hwm =>
            rw [hwm] at hname
            cases hname
            exact winnersScan_sub cm wm sd rest _ _ h (setAdd_mem _ _)
        · next hcond2 =>
          rw [if_neg hcond2] at hname
          cases hname
    · split at h
      · split at h
        · cases h
        · exact ih _ _ _ _ h hmem2 hname
      · split at h
        · split at h
          · cases h
          · exact ih _ _ _ _ h hmem2 hname
        · exact ih _ _ _ _ h hmem2 hname

theorem winnersScan_provenance (cm wm : Line → Option Line) (sd : Bool) :
    ∀ (lines : List Line) (ws0 ws : List Line) (p : Line),
    winnersScan cm wm sd ws0 lines = .ok ws → p ∈ ws →
    p ∈ ws0 ∨ ∃ ln ∈ lines, winnerNameAt cm wm sd ln = some p := by
  intro lines
  induction lines with
  | nil =>
    intro ws0 ws p h hp
    simp only [winnersScan] at h
    cases h
    exact Or.inl hp
  | cons ln0 rest ih =>
    intro ws0 ws p h hp
    simp only [winnersScan] at h
    split at h
    · next hcond =>
      split at h
      · cases h
      · next name hcm =>
        rcases ih _ _ _ h hp with hmem | ⟨ln, hln, hn⟩
        · rcases setAdd_mem_elim _ _ _ hmem with h1 | h1
          · exact Or.inl h1
          · refine Or.inr ⟨ln0, List.mem_cons_self _ _, ?_⟩
            unfold winnerNameAt
            rw [if_pos hcond, hcm, h1]
        · exact Or.inr ⟨ln, List.mem_cons_of_mem _ hln, hn⟩
    · next hcond =>
      split at h
      · next hcond2 =>
        split at h
        · cases h
        · next name hwm =>
          rcases ih _ _ _ h hp with hmem | ⟨ln, hln, hn⟩
          · rcases setAdd_mem_elim _ _ _ hmem with h1 | h1
            · exact Or.inl h1
            · refine Or.inr ⟨ln0, List.mem_cons_self _ _, ?_⟩
              unfold winnerNameAt
              rw [if_neg hcond, if_pos hcond2, hwm, h1]
          · exact Or.inr ⟨ln, List.mem_cons_of_mem _ hln, hn⟩
      · rcases ih _ _ _ h hp with hmem | ⟨ln, hln, hn⟩
        · exact Or.inl hmem
        · exact Or.inr ⟨ln, List.mem_cons_of_mem _ hln, hn⟩

theorem winnersScan_empty_iff (cm wm : Line → Option Line) (sd : Bool) :
    ∀ (lines : List Line) (ws0 ws : List Line),
    winnersScan cm wm sd ws0 lines = .ok ws →
    (ws = [] ↔ ws0 = [] ∧ ∀ ln ∈ lines, winnerLineFires sd ln = false) := by
  intro lines
  induction lines with
  | nil =>
    intro ws0 ws h
    simp only [winnersScan] at h
    cases h
    simp
  | cons ln0 rest ih =>
    intro ws0 ws h
    simp only [winnersScan] at h
    split at h
    · next hcond =>
      split at h
      · cases h
      · rw [ih _ _ h]
        constructor
        · intro ⟨ha, _⟩
          exact absurd ha (setAdd_ne_nil _ _)
        · intro ⟨_, hall⟩
          have := hall ln0 (List.mem_cons_self _ _)
          unfold winnerLineFires at this
          rw [hcond] at this
          simp at this
    · next hcond =>
      split at h
      · next hcond2 =>
        split at h
        · cases h
        · rw [ih _ _ h]
          constructor
          · intro ⟨ha, _⟩
            exact absurd ha (setAdd_ne_nil _ _)
          · intro ⟨_, hall⟩
            have := hall ln0 (List.mem_cons_self _ _)
            unfold winnerLineFires at this
            rw [hcond2] at this
            simp at this
      · next hcond2 =>
        rw [ih _ _ h]
        constructor
        · intro ⟨ha, hall⟩
          refine ⟨ha, ?_⟩
          intro ln hln
          rcases List.mem_cons.mp hln with heq | hm
          · subst heq
            unfold winnerLineFires
            rw [Bool.or_eq_false_iff]
            exact ⟨by simpa using hcond, by simpa using hcond2⟩
          · exact hall ln hm
        · intro ⟨ha, hall⟩
          exact ⟨ha, fun ln hm => hall ln (List.mem_cons_of_mem _ hm)⟩

/-- C1: the derived board of a hand record is computed from the assigned
flop/turn/river street attributes exactly as specified: an absent flop
gives an absent board whatever turn and river hold; a three-card flop with
an absent turn gives the flop itself whatever river holds; flop and turn
without river give the four-card concatenation; all three streets give the
five-card concatenation in flop, turn, river order. -/
theorem board_derivation (a b c d e : Line) (hd : d ≠ []) (he : e ≠ []) :
    (∀ t r, pokerBoard none t r = none) ∧
    (∀ r, pokerBoard (some [a, b, c]) none r = some [a, b, c]) ∧
    pokerBoard (some [a, b, c]) (some d) none = some [a, b, c, d] ∧
    pokerBoard (some [a, b, c]) (some d) (some e) = some [a, b, c, d, e] := by
  have hd2 : d.isEmpty = false := by
    cases d
    · exact absurd rfl hd
    · rfl
  have he2 : e.isEmpty = false := by
    cases e
    · exact absurd rfl he
    · rfl
  refine ⟨fun t r => rfl, fun r => rfl, ?_, ?_⟩
  · simp [pokerBoard, boardList, truthyList, truthyStr, hd2]
  · simp [pokerBoard, boardList, truthyList, truthyStr, hd2, he2]

/-- Witness for C1 at concrete cards. -/
theorem board_derivation_witness :
    pokerBoard (some [strL "Ah", strL "Kd", strL "5s"]) (some (strL "2c"))
        (some (strL "9h")) =
      some [strL "Ah", strL "Kd", strL "5s", strL "2c", strL "9h"] :=
  (board_derivation (strL "Ah") (strL "Kd") (strL "5s") (strL "2c")
    (strL "9h") (by decide) (by decide)).2.2.2

/-- C9: the room, game-type, game-variant and limit normalizers are
partial — any input whose case-folded form is not in the fixed table maps
to an absent result (they are plain total Lean functions into `Option`, so
they cannot raise) — while the money-type normalizer is total and maps an
unrecognized input to the upper-cased echo of the input. -/
theorem normalizers_partiality (s : String)
    (hr : pyLower s ∉ ["stars", "pokerstars", "ps", "ftp", "full tilt",
      "fulltilt", "full tilt poker", "fulltiltpoker", "pkr", "pkr poker"])
    (hg : pyLower s ∉ ["ring", "cash game", "cash", "tournament", "tour"])
    (hv : pyLower s ∉ [holdemKey, "holdem", "omaha"])
    (hl : pyLower s ∉ ["no limit", "nl", "pot limit", "pl", "fix limit",
      "fl"])
    (hm : pyLower s ∉ ["real money", "play money"]) :
    normalize_room s = none ∧ normalize_game_type s = none ∧
    normalize_game s = none ∧ normalize_limit s = none ∧
    normalize_money_type s = pyUpper s := by
  simp only [List.mem_cons, List.mem_singleton, not_or] at hr hg hv hl hm
  refine ⟨?_, ?_, ?_, ?_, ?_⟩
  · unfold normalize_room
    rw [if_neg (by simp_all), if_neg (by simp_all), if_neg (by simp_all)]
  · unfold normalize_game_type
    rw [if_neg (by simp_all), if_neg (by simp_all)]
  · unfold normalize_game
    rw [if_neg (by simp_all), if_neg (by simp_all)]
  · unfold normalize_limit
    rw [if_neg (by simp_all), if_neg (by simp_all), if_neg (by simp_all)]
  · unfold normalize_money_type
    rw [if_neg (by simp_all), if_neg (by simp_all)]
    exact strLowerUpper s

/-- Witness for C9 at the concrete unrecognized input `Zynga`. -/
theorem normalizers_partiality_witness :
    normalize_room "Zynga" = none ∧ normalize_game_type "Zynga" = none ∧
    normalize_game "Zynga" = none ∧ normalize_limit "Zynga" = none ∧
    normalize_money_type "Zynga" = "ZYNGA" :=
  normalizers_partiality "Zynga" (by decide) (by decide) (by decide)
    (by decide) (by decide)

theorem pstep_err {σ : Type} (f g : σ → σ × Except PyErr Unit) (s : σ)
    (e : PyErr) (h : (f s).2 = .error e) :
    pstep f g s = ((f s).1, .error e) := by
  unfold pstep
  rcases hf : f s with ⟨s1, r2⟩
  rw [hf] at h
  simp only at h
  subst h
  rfl

theorem ftpInit_splitted_cons (text : String) :
    ∃ a t, (ftpInitRec text).splitted = a :: t := by
  have h : (ftpInitRec text).splitted ≠ [] := by
    show reSplit starsSplitMatchLen (pyStrip text.data) ≠ []
    exact reSplit_ne_nil _ _
  exact List.exists_cons_of_ne_nil h

theorem ftpHeaderStage_none (r : FtpRec) (a : Line) (t : List Line)
    (hsplit : r.splitted = a :: t) (hm : ftpTournamentMatch a = none) :
    ftpParseHeaderStage r =
      ({ r with game_type := some (strL "TOUR") }, .error .attributeError) := by
  unfold ftpParseHeaderStage
  rw [pyListGet_zero _ a t hsplit]
  simp only [hm]

theorem ftpHeaderStage_some (r : FtpRec) (a : Line) (t : List Line)
    (hsplit : r.splitted = a :: t) (ds nm td tb : Line)
    (hm : ftpTournamentMatch a = some (ds, nm, td, tb)) :
    ftpParseHeaderStage r =
      (ftpHeaderFields r ds nm td tb, .error (.nameError "LIMITS")) := by
  unfold ftpParseHeaderStage ftpHeaderFields
  rw [pyListGet_zero _ a t hsplit]
  simp only [hm]
  rfl

theorem pkrHeaderStage_err (sOk : Line → Bool) (r : PkrRec) :
    ∃ e, (pkrParseHeaderStage sOk r).2 = .error e ∧
      (e = .indexError ∨ e = .valueError ∨ e = .nameError "GAMES") := by
  unfold pkrParseHeaderStage
  split
  · next e he => exact ⟨e, rfl, Or.inl (pyListGet_err _ _ _ he)⟩
  · try dsimp only
    split
    · next e he => exact ⟨e, rfl, Or.inl (pyListGet_err _ _ _ he)⟩
    · try dsimp only
      split
      · next e he => exact ⟨e, rfl, Or.inl (pyListGet_err _ _ _ he)⟩
      · split
        · exact ⟨.valueError, rfl, Or.inr (Or.inl rfl)⟩
        · try dsimp only
          split
          · next e he => exact ⟨e, rfl, Or.inl (pyListGet_err _ _ _ he)⟩
          · exact ⟨.nameError "GAMES", rfl, Or.inr (Or.inr rfl)⟩

theorem pkrHeaderStage_hp (sOk : Line → Bool) (r : PkrRec) :
    ((pkrParseHeaderStage sOk r).1).header_parsed = r.header_parsed := by
  unfold pkrParseHeaderStage
  split
  · rfl
  · try dsimp only
    split
    · rfl
    · try dsimp only
      split
      · rfl
      · split
        · rfl
        · try dsimp only
          split
          · rfl
          · rfl

theorem ftpHeaderStage_hp (r : FtpRec) :
    ((ftpParseHeaderStage r).1).header_parsed = r.header_parsed := by
  unfold ftpParseHeaderStage
  split
  · rfl
  · try dsimp only
    split
    · rfl
    · rfl

/-- C2: every call of `parse_header` raises: for PokerStars the undefined
global `TYPES` is resolved before anything else, so the result is always a
`NameError` with no field assigned; for Full Tilt the whole parse raises
on every input, with `NameError` on `LIMITS` exactly when the header
matched (and an `AttributeError` from the failed match otherwise); for PKR
the parse never returns normally, the only outcomes being `IndexError`,
`ValueError` from the date, or the `NameError` on `GAMES` at the
canonical-code lookup; consequently no `parse` of any room completes. -/
theorem parse_always_raises :
    (∀ text : String,
      starsParseHeaderStage (starsInitRec text) =
        (starsInitRec text, .error (.nameError "TYPES")) ∧
      (starsParseFull text).2 = .error (.nameError "TYPES")) ∧
    (∀ text : String, ∃ e,
      (ftpParseFull text).2 = .error e ∧
      (∀ g, ftpTournamentMatch ((ftpInitRec text).splitted.headD []) =
          some g → e = .nameError "LIMITS") ∧
      (ftpTournamentMatch ((ftpInitRec text).splitted.headD []) = none →
        e = .attributeError)) ∧
    (∀ (sOk : Line → Bool) (text : String),
      (pkrParseFull sOk text).2 ≠ .ok () ∧
      ∀ e, (pkrParseFull sOk text).2 = .error e →
        e = .indexError ∨ e = .valueError ∨ e = .nameError "GAMES") := by
  refine ⟨?_, ?_, ?_⟩
  · intro text
    exact ⟨rfl, rfl⟩
  · intro text
    obtain ⟨a, t, hsplit⟩ := ftpInit_splitted_cons text
    have hgate : ftpHeaderGate (ftpInitRec text) =
        ftpParseHeaderStage (ftpInitRec text) := by
      unfold ftpHeaderGate
      rw [if_neg]
      intro hc
      exact absurd hc (by simp [ftpInitRec])
    have hhead : (ftpInitRec text).splitted.headD [] = a := by
      rw [hsplit]; rfl
    cases hm : ftpTournamentMatch a with
    | none =>
      refine ⟨.attributeError, ?_, ?_, fun _ => rfl⟩
      · have hstage := ftpHeaderStage_none (ftpInitRec text) a t hsplit hm
        have herr : (ftpHeaderGate (ftpInitRec text)).2 =
            .error .attributeError := by
          rw [hgate, hstage]
        unfold ftpParseFull ftpParse
        rw [pstep_err _ _ _ _ herr]
      · intro g hg
        rw [hhead, hm] at hg
        cases hg
    | some g =>
      obtain ⟨ds, nm, td, tb⟩ := g
      refine ⟨.nameError "LIMITS", ?_, fun _ _ => rfl, ?_⟩
      · have hstage := ftpHeaderStage_some (ftpInitRec text) a t hsplit
          ds nm td tb hm
        have herr : (ftpHeaderGate (ftpInitRec text)).2 =
            .error (.nameError "LIMITS") := by
          rw [hgate, hstage]
        unfold ftpParseFull ftpParse
        rw [pstep_err _ _ _ _ herr]
      · intro hnone
        rw [hhead, hm] at hnone
        cases hnone
  · intro sOk text
    have hgate : pkrHeaderGate sOk (pkrInitRec text) =
        pkrParseHeaderStage sOk (pkrInitRec text) := by
      unfold pkrHeaderGate
      rw [if_neg]
      intro hc
      exact absurd hc (by simp [pkrInitRec])
    obtain ⟨e, he, hcases⟩ := pkrHeaderStage_err sOk (pkrInitRec text)
    have herr : (pkrHeaderGate sOk (pkrInitRec text)).2 = .error e := by
      rw [hgate]; exact he
    have hfull : (pkrParseFull sOk text).2 = .error e := by
      unfold pkrParseFull pkrParse
      rw [pstep_err _ _ _ _ herr]
    constructor
    · rw [hfull]; intro hko; cases hko
    · intro e2 he2
      rw [hfull] at he2
      cases he2
      exact hcases

/-- Witness for C2 at the concrete input `x` (and, for PKR, the date test
that rejects every string). -/
theorem parse_always_raises_witness :
    (starsParseFull "x").2 = .error (.nameError "TYPES") ∧
    (ftpParseFull "x").2 = .error .attributeError ∧
    (pkrParseFull (fun _ => false) "x").2 ≠ .ok () := by
  refine ⟨(parse_always_raises.1 "x").2, ?_, ?_⟩
  · obtain ⟨e, he, _, hnone⟩ := parse_always_raises.2.1 "x"
    rw [he, hnone (by decide)]
  · exact (parse_always_raises.2.2 (fun _ => false) "x").1

/-- C8 amended: a header that does not conform to the room grammar makes
the whole parse raise before any body stage runs and before any further
field extraction — but the failure is an ordinary uncaught exception
(`AttributeError` from `match.group` on `None` for Full Tilt; for
PokerStars the undefined `TYPES` raises the same `NameError` whether or
not the header conforms), not a classified format-mismatch error, and
Full Tilt assigns `game_type` before reaching the failed match, so that
one field of a partial record survives a failed header. -/
theorem header_mismatch_fail_fast (text : String) :
    (∀ a t, (ftpInitRec text).splitted = a :: t →
      ftpTournamentMatch a = none →
      ftpParseFull text =
        ({ ftpInitRec text with game_type := some (strL "TOUR") },
          .error .attributeError)) ∧
    starsParseFull text = (starsInitRec text, .error (.nameError "TYPES")) := by
  constructor
  · intro a t hsplit hm
    have hgate : ftpHeaderGate (ftpInitRec text) =
        ftpParseHeaderStage (ftpInitRec text) := by
      unfold ftpHeaderGate
      rw [if_neg]
      intro hc
      exact absurd hc (by simp [ftpInitRec])
    have hstage := ftpHeaderStage_none (ftpInitRec text) a t hsplit hm
    have herr : (ftpHeaderGate (ftpInitRec text)).2 =
        .error .attributeError := by rw [hgate, hstage]
    unfold ftpParseFull ftpParse
    rw [pstep_err _ _ _ _ herr, hgate, hstage]
  · rfl

/-- Witness for C8 at the non-conforming input `x`. -/
theorem header_mismatch_fail_fast_witness :
    ftpParseFull "x" =
      ({ ftpInitRec "x" with game_type := some (strL "TOUR") },
        .error .attributeError) :=
  (header_mismatch_fail_fast "x").1 (strL "x") [] (by rfl) (by rfl)

/-- Counterexample to C8 as stated: on input `x` the Full Tilt header does
not conform, the parse raises an `AttributeError` (no classified
format-mismatch value exists anywhere in the module), and yet the partial
record carries `game_type = TOUR` — a field extracted from the failed
header stage. -/
theorem header_mismatch_partial_record :
    (ftpParseFull "x").2 = .error .attributeError ∧
    (ftpParseFull "x").1.game_type ≠ none := by
  constructor
  · rfl
  · rw [show (ftpParseFull "x").1.game_type = some (strL "TOUR") from rfl]
    simp

/-- C10: the base `parse` does skip the header stage whenever
`header_parsed` is true (first clause), but no execution of any
`parse_header` can ever set the flag: PokerStars and Full Tilt raise the
undefined-global `NameError` (or the earlier `AttributeError`) before
their final `self.header_parsed = True` line, and `PKRHand.parse_header`
has no such assignment at all — so after `parse_header`, a `parse` call
re-runs the header stage instead of skipping it. -/
theorem header_stage_rerun :
    (∀ r : StarsRec, r.header_parsed = true → starsHeaderGate r = (r, .ok ())) ∧
    (∀ text : String,
      ((starsParseHeaderStage (starsInitRec text)).1).header_parsed = false) ∧
    (∀ text : String,
      ((ftpParseHeaderStage (ftpInitRec text)).1).header_parsed = false) ∧
    (∀ (sOk : Line → Bool) (text : String),
      ((pkrParseHeaderStage sOk (pkrInitRec text)).1).header_parsed = false) ∧
    (∀ (sOk : Line → Bool) (r : PkrRec), r.header_parsed = false →
      pkrHeaderGate sOk r = pkrParseHeaderStage sOk r) := by
  refine ⟨?_, ?_, ?_, ?_, ?_⟩
  · intro r h
    unfold starsHeaderGate
    rw [if_pos h]
  · intro text
    rfl
  · intro text
    rw [ftpHeaderStage_hp]
    rfl
  · intro sOk text
    rw [pkrHeaderStage_hp]
    rfl
  · intro sOk r h
    unfold pkrHeaderGate
    rw [h]
    simp

/-- Witness for C10: after a PKR `parse_header` on the input `x` the flag
is still false, so the subsequent `parse` runs the header stage again. -/
theorem header_stage_rerun_witness :
    ((pkrParseHeaderStage (fun _ => false) (pkrInitRec "x")).1).header_parsed
        = false ∧
    pkrHeaderGate (fun _ => false) (pkrInitRec "x") =
      pkrParseHeaderStage (fun _ => false) (pkrInitRec "x") :=
  ⟨header_stage_rerun.2.2.2.1 (fun _ => false) "x",
    header_stage_rerun.2.2.2.2 (fun _ => false) (pkrInitRec "x") rfl⟩

theorem winnerNameAt_false (cm wm : Line → Option Line) (ln p : Line)
    (h : winnerNameAt cm wm false ln = some p) :
    containsSub (strL "collected") ln = true ∧ cm ln = some p := by
  unfold winnerNameAt at h
  by_cases hc : containsSub (strL "collected") ln
  · rw [if_pos (by simp [hc])] at h
    exact ⟨hc, h⟩
  · rw [if_neg (by simp [hc]), if_neg (by simp)] at h
    cases h

theorem winnerNameAt_true (cm wm : Line → Option Line) (ln p : Line)
    (h : winnerNameAt cm wm true ln = some p) :
    containsSub (strL "won") ln = true ∧ wm ln = some p := by
  unfold winnerNameAt at h
  rw [if_neg (by simp)] at h
  by_cases hc : containsSub (strL "won") ln
  · rw [if_pos (by simp [hc])] at h
    exact ⟨hc, h⟩
  · rw [if_neg (by simp [hc])] at h
    cases h

/-- C6: winner extraction branches only on the showdown flag, which is
itself the literal membership of the showdown marker among the split
pieces (first two clauses).  With the flag false every extracted winner
comes from a line containing `collected`, matched by the collected
pattern; with the flag true every winner comes from a line containing
`won`, matched by the showdown pattern; since the flag is fixed for the
whole pass, the two patterns never both contribute in one pass. -/
theorem winners_branch_exclusive :
    (∀ r : StarsRec, starsShowDownStage r =
      ({ r with show_down := some (r.splitted.contains (strL "SHOW DOWN")) },
        .ok ())) ∧
    (∀ r : FtpRec, ftpShowDownStage r =
      ({ r with show_down := some (r.splitted.contains (strL "SHOW DOWN")) },
        .ok ())) ∧
    (∀ (cm wm : Line → Option Line) (lines ws : List Line) (p : Line),
      winnersScan cm wm false [] lines = .ok ws → p ∈ ws →
      ∃ ln ∈ lines, containsSub (strL "collected") ln = true ∧
        cm ln = some p) ∧
    (∀ (cm wm : Line → Option Line) (lines ws : List Line) (p : Line),
      winnersScan cm wm true [] lines = .ok ws → p ∈ ws →
      ∃ ln ∈ lines, containsSub (strL "won") ln = true ∧ wm ln = some p) := by
  refine ⟨fun r => rfl, fun r => rfl, ?_, ?_⟩
  · intro cm wm lines ws p hscan hp
    rcases winnersScan_provenance cm wm false lines [] ws p hscan hp with
      hmem | ⟨ln, hln, hname⟩
    · cases hmem
    · exact ⟨ln, hln, winnerNameAt_false cm wm ln p hname⟩
  · intro cm wm lines ws p hscan hp
    rcases winnersScan_provenance cm wm true lines [] ws p hscan hp with
      hmem | ⟨ln, hln, hname⟩
    · cases hmem
    · exact ⟨ln, hln, winnerNameAt_true cm wm ln p hname⟩

/-- Witness for C6: a concrete no-showdown pass over one collected line. -/
theorem winners_branch_exclusive_witness :
    ∃ ln ∈ [strL "Seat 1: Alice collected (20)"],
      containsSub (strL "collected") ln = true ∧
      starsWinnerMatch ln = some (strL "Alice") :=
  winners_branch_exclusive.2.2.1 starsWinnerMatch showdownWonMatch
    [strL "Seat 1: Alice collected (20)"] [strL "Alice"] (strL "Alice")
    (by rfl) (by decide)

/-- C5 amended: for PokerStars and Full Tilt the winner accumulator is a
set, so a player named by however many firing winner lines of a pass
appears in the extracted winners exactly once; PKR instead appends to a
list without de-duplication, so there a player winning several pots
appears once per winning line (see the counterexample). -/
theorem countOcc_eq_one (p : Line) :
    ∀ (ws : List Line), ws.Nodup → p ∈ ws → countOcc p ws = 1 := by
  intro ws
  induction ws with
  | nil => intro _ hm; cases hm
  | cons a t ih =>
    intro hnd hm
    unfold countOcc
    simp only [List.filter]
    cases hap : a == p with
    | true =>
      have hap2 : a = p := eq_of_beq hap
      subst hap2
      have hnotin : a ∉ t := (List.nodup_cons.mp hnd).1
      have hempty : t.filter (fun w => w == a) = [] := by
        rw [List.filter_eq_nil]
        intro b hb hbeq
        exact hnotin (eq_of_beq hbeq ▸ hb)
      simp [countOcc, hempty]
    | false =>
      have hap2 : a ≠ p := fun he => by simp [he] at hap
      have hmt : p ∈ t := by
        rcases List.mem_cons.mp hm with he | hmt
        · exact absurd he.symm hap2
        · exact hmt
      have h2 := ih (List.nodup_cons.mp hnd).2 hmt
      simpa [countOcc] using h2

theorem winners_deduplicated (cm wm : Line → Option Line) (sd : Bool)
    (lines ws : List Line) (p : Line)
    (hscan : winnersScan cm wm sd [] lines = .ok ws)
    (hline : ∃ ln ∈ lines, winnerNameAt cm wm sd ln = some p) :
    countOcc p ws = 1 := by
  obtain ⟨ln, hln, hname⟩ := hline
  have hmem := winnersScan_mem_of_line cm wm sd lines [] ws ln p hscan hln
    hname
  have hnd := winnersScan_nodup cm wm sd lines [] ws hscan List.nodup_nil
  exact countOcc_eq_one p ws hnd hmem

/-- Witness for C5: two collected lines naming Alice, one occurrence. -/
theorem winners_deduplicated_witness :
    countOcc (strL "Alice") [strL "Alice"] = 1 :=
  winners_deduplicated starsWinnerMatch showdownWonMatch false
    [strL "Seat 1: Alice collected (20)", strL "Seat 2: Alice collected (5)"]
    [strL "Alice"] (strL "Alice") (by rfl)
    ⟨strL "Seat 1: Alice collected (20)", by decide, by decide⟩

/-- C4 amended: after a completed winner extraction the winners value is
empty exactly when no scanned line fires the branch selected by the
showdown flag; in particular a pass with `show_down` true and no
won-marker line completes successfully with an empty winners collection
(see the counterexample), violating the non-emptiness invariant. -/
theorem winners_empty_characterization (cm wm : Line → Option Line)
    (sd : Bool) (lines ws : List Line)
    (h : winnersScan cm wm sd [] lines = .ok ws) :
    ws = [] ↔ ∀ ln ∈ lines, winnerLineFires sd ln = false := by
  have h2 := winnersScan_empty_iff cm wm sd lines [] ws h
  simpa using h2

/-- Witness for C4 on a pass whose only line fires nothing. -/
theorem winners_empty_characterization_witness :
    (([] : List Line) = [] ↔
      ∀ ln ∈ [strL "Alice: shows a pair"],
        winnerLineFires true ln = false) :=
  winners_empty_characterization starsWinnerMatch showdownWonMatch true
    [strL "Alice: shows a pair"] [] (by rfl)

theorem pstep_ok {σ : Type} (f g : σ → σ × Except PyErr Unit) (s s1 : σ)
    (h : f s = (s1, .ok ())) : pstep f g s = g s1 := by
  unfold pstep
  rw [h]

/-- C7: a street whose marker is not among the split pieces is not an
error — the street card value, its action lines (and for Full Tilt the
per-street pot and player count) are set to an explicit `None` and the
stage returns normally; in particular (last clause) a Full Tilt hand with
no turn marker and no river marker comes out with `turn = None`,
`river = None`, `turn_actions = None`, `river_actions = None` (and the
per-street statistics `None`), the flop untouched, and a derived board
equal to the flop alone. -/
theorem street_marker_absent :
    (∀ r : StarsRec, strL "FLOP" ∉ r.splitted →
      starsStreetFlopStage r =
        ({ r with flop := some none, flop_actions := some none }, .ok ())) ∧
    (∀ r : StarsRec, strL "TURN" ∉ r.splitted →
      starsStreetTurnStage r =
        ({ r with turn := some none, turn_actions := some none }, .ok ())) ∧
    (∀ r : StarsRec, strL "RIVER" ∉ r.splitted →
      starsStreetRiverStage r =
        ({ r with river := some none, river_actions := some none },
          .ok ())) ∧
    (∀ r : FtpRec, strL "FLOP" ∉ r.splitted →
      (ftpStreetFlopStage r).2 = .ok () ∧
      (ftpStreetFlopStage r).1.flop = some none ∧
      (ftpStreetFlopStage r).1.flop_actions = some none ∧
      (ftpStreetFlopStage r).1.flop_pot = some none ∧
      (ftpStreetFlopStage r).1.flop_num_players = some none) ∧
    (∀ r : FtpRec, strL "TURN" ∉ r.splitted → strL "RIVER" ∉ r.splitted →
      (pstep ftpStreetTurnStage ftpStreetRiverStage r).2 = .ok () ∧
      ((pstep ftpStreetTurnStage ftpStreetRiverStage r).1.turn = some none ∧
        (pstep ftpStreetTurnStage ftpStreetRiverStage r).1.river =
          some none ∧
        (pstep ftpStreetTurnStage ftpStreetRiverStage r).1.turn_actions =
          some none ∧
        (pstep ftpStreetTurnStage ftpStreetRiverStage r).1.river_actions =
          some none ∧
        (pstep ftpStreetTurnStage ftpStreetRiverStage r).1.turn_pot =
          some none ∧
        (pstep ftpStreetTurnStage ftpStreetRiverStage r).1.river_pot =
          some none ∧
        (pstep ftpStreetTurnStage ftpStreetRiverStage r).1.flop = r.flop) ∧
      (∀ f, r.flop = some (some f) → f.isEmpty = false →
        boardProp (pstep ftpStreetTurnStage ftpStreetRiverStage r).1.flop
          (pstep ftpStreetTurnStage ftpStreetRiverStage r).1.turn
          (pstep ftpStreetTurnStage ftpStreetRiverStage r).1.river =
          .ok (some f)) ∧
      (r.flop = some none →
        boardProp (pstep ftpStreetTurnStage ftpStreetRiverStage r).1.flop
          (pstep ftpStreetTurnStage ftpStreetRiverStage r).1.turn
          (pstep ftpStreetTurnStage ftpStreetRiverStage r).1.river =
          .ok none)) := by
  have hstars : ∀ (splitted : List Line) (u : Line), u ∉ splitted →
      starsStreetCore splitted u = none := by
    intro splitted u hu
    unfold starsStreetCore
    rw [pyIndexQ_eq_none _ _ hu]
  refine ⟨?_, ?_, ?_, ?_, ?_⟩
  · intro r h
    unfold starsStreetFlopStage
    rw [hstars _ _ h]
  · intro r h
    unfold starsStreetTurnStage
    rw [hstars _ _ h]
  · intro r h
    unfold starsStreetRiverStage
    rw [hstars _ _ h]
  · intro r h
    unfold ftpStreetFlopStage
    rw [pyIndexQ_eq_none _ _ h]
    exact ⟨rfl, rfl, rfl, rfl, rfl⟩
  · intro r hT hR
    have h1 : ftpStreetTurnStage r =
        (let r1 := { r with turn := some none, turn_actions := some none }
         { r1 with turn_pot := some none, turn_num_players := some none },
          .ok ()) := by
      unfold ftpStreetTurnStage
      rw [pyIndexQ_eq_none _ _ hT]
    have hres : pstep ftpStreetTurnStage ftpStreetRiverStage r =
        (ftpNoTurnRiver r, .ok ()) := by
      rw [pstep_ok _ _ _ _ h1]
      unfold ftpStreetRiverStage
      dsimp only
      rw [pyIndexQ_eq_none _ _ hR]
      rfl
    rw [hres]
    refine ⟨rfl, ⟨rfl, rfl, rfl, rfl, rfl, rfl, rfl⟩, ?_, ?_⟩
    · intro f hf hfe
      show boardProp r.flop (some none) (some none) = .ok (some f)
      rw [hf]
      cases f with
      | nil => exact absurd hfe (by simp)
      | cons c t =>
        show Except.ok (pokerBoard (some (c :: t)) none none) =
          Except.ok (some (c :: t))
        congr 1
        simp [pokerBoard, boardList, truthyList, truthyStr]
    · intro hf
      show boardProp r.flop (some none) (some none) = .ok none
      rw [hf]
      rfl

/-- Witness for C7 on a concrete record with flop but no turn marker. -/
theorem street_marker_absent_witness :
    starsStreetTurnStage (starsInitRec "x") =
      ({ starsInitRec "x" with turn := some none, turn_actions := some none },
        .ok ()) :=
  street_marker_absent.2.1 (starsInitRec "x") (by decide)

set_option maxRecDepth 100000 in
/-- Counterexample to C3 as stated: on `starsDupText` the PokerStars body
parse completes normally, yet the players mapping has a single entry while
`max_players` is 2 — the ordered name-keyed map silently merged the seat
whose occupant is named like a placeholder. -/
theorem players_shorter_than_max :
    (starsParseBodyStage (starsInitRec starsDupText)).2 = .ok () ∧
    (starsParseBodyStage (starsInitRec starsDupText)).1.players =
      some [(strL "Empty Seat 2", 0)] ∧
    (starsParseBodyStage (starsInitRec starsDupText)).1.max_players =
      some 2 :=
  ⟨rfl, rfl, rfl⟩

set_option maxRecDepth 100000 in
/-- Counterexample to C4 as stated: on `starsEmptyWinText` the PokerStars
body parse completes normally (`parsed` is set), `show_down` is true, and
the winners collection is empty. -/
theorem winners_empty_after_success :
    (starsParseBodyStage (starsInitRec starsEmptyWinText)).2 = .ok () ∧
    (starsParseBodyStage (starsInitRec starsEmptyWinText)).1.show_down =
      some true ∧
    (starsParseBodyStage (starsInitRec starsEmptyWinText)).1.winners =
      some [] ∧
    (starsParseBodyStage (starsInitRec starsEmptyWinText)).1.parsed =
      true :=
  ⟨rfl, rfl, rfl, rfl⟩

set_option maxRecDepth 100000 in
/-- Counterexample to C5 as stated: the PKR winner extraction on
`pkrDupText` completes normally and `Alice`, named by two winning lines of
the same hand, appears twice in the winners tuple. -/
theorem winners_duplicate_pkr :
    (pkrParseShowdownStage (pkrInitRec pkrDupText)).2 = .ok () ∧
    countOcc (strL "Alice")
      (((pkrParseShowdownStage (pkrInitRec pkrDupText)).1.winners).getD [])
      = 2 :=
  ⟨rfl, rfl⟩

theorem pyListGet_ok_of_lt {α : Type} (l : List α) (i : Int) (h0 : 0 ≤ i)
    (h1 : i < l.length) :
    ∃ a, pyListGet l i = .ok a ∧ l.get? i.toNat = some a := by
  unfold pyListGet
  have hw : pyWrapIdx l i = i := by
    unfold pyWrapIdx
    rw [if_neg (by omega)]
  rw [hw]
  have hlt : i.toNat < l.length := by omega
  refine ⟨l.get ⟨i.toNat, hlt⟩, ?_, List.get?_eq_get hlt⟩
  rw [List.get?_eq_get hlt]
  dsimp only
  rw [if_pos h0]

theorem pySliceTo_toNat {α : Type} (l : List α) (b : Int) (hb : 0 ≤ b) :
    pySliceTo l b = l.take b.toNat := by
  unfold pySliceTo pySliceList pySliceBound
  rw [if_neg (by omega : ¬ (0:Int) < 0), if_neg (by omega : ¬ b < 0)]
  simp only [Int.toNat_zero, Nat.zero_min, List.drop_zero]
  rcases Nat.le_total b.toNat l.length with hle | hle
  · rw [min_eq_left hle]
  · rw [min_eq_right hle, List.take_length,
      List.take_of_length_le hle]

theorem get?_take_lt {α : Type} (l : List α) (n i : Nat) (h : i < n) :
    (l.take n).get? i = l.get? i :=
  List.get?_take h

theorem starsSeatsInvariant (r : StarsRec) (ps : List (Line × Rat))
    (bs : Int) (hlist : starsSeatList r = .ok ps)
    (hnd : (ps.map Prod.fst).Nodup) (hbs : r.button_seat = some bs)
    (h1 : 1 ≤ bs) (h2 : bs ≤ ps.length) :
    ∃ p, ps.get? (bs - 1).toNat = some p ∧
      starsParseSeatsStage r =
        ({ r with button := some p.1, players := some ps }, .ok ()) ∧
      ∃ mx, r.max_players = some mx ∧ ps.length = mx.toNat := by
  obtain ⟨p, hget, hgetq⟩ := pyListGet_ok_of_lt ps (bs - 1) (by omega)
    (by omega)
  refine ⟨p, hgetq, ?_, starsSeatList_spec r ps hlist⟩
  unfold starsParseSeatsStage
  rw [hlist]
  dsimp only
  have hdo : (do
      let b ← getAttr r.button_seat
      pyListGet ps (b - 1)) = Except.ok p := by
    rw [hbs]
    show pyListGet ps (bs - 1) = Except.ok p
    exact hget
  rw [hdo]
  rw [odFromPairs_self ps hnd]

theorem starsHeroInvariant (r r2 : StarsRec)
    (h : starsParseHoleStage r = (r2, .ok ())) :
    ∃ ps hs hero, r.players = some ps ∧ r2.hero_seat = some hs ∧
      r2.hero = some hero ∧ 1 ≤ hs ∧
      (ps.map Prod.fst).get? (hs - 1).toNat = some hero := by
  unfold starsParseHoleStage at h
  split at h
  · cases h
  · next line hline =>
    split at h
    · cases h
    · next name c1 c2 hmatch =>
      dsimp only at h
      split at h
      · cases h
      · next hs hdo =>
        cases h
        cases hps : r.players with
        | none => rw [hps] at hdo; cases hdo
        | some ps =>
          rw [hps] at hdo
          have hdo2 : keysIndexSucc ps name = .ok hs := hdo
          obtain ⟨hge, hget⟩ := keysIndexSucc_spec ps name hs hdo2
          exact ⟨ps, hs, name, rfl, rfl, rfl, hge, hget⟩

theorem ftpSeatsInvariant (r : FtpRec) (players : List (Line × Rat))
    (mx : Int) (bline : Line) (d : Char)
    (hloop : ftpSeatLoop (initSeats 9) none (pySliceFrom r.splitted 1) =
      .ok (players, some mx))
    (hnd : ((players.take mx.toNat).map Prod.fst).Nodup)
    (hbl : (do
        let s0 ← pyListGet r.sections 0
        pyListGet r.splitted (s0 - 1)) = Except.ok bline)
    (hbm : ftpButtonMatch bline = some d)
    (hd1 : 1 ≤ digitToInt d) (hd2 : digitToInt d ≤ mx) :
    ∃ p, players.get? (digitToInt d - 1).toNat = some p ∧
      ftpParseSeatsStage r = ({ r with max_players := some mx, players := some (players.take mx.toNat), button_seat := some (digitToInt d), button := some p.1 }, .ok ()) ∧
      (players.take mx.toNat).length = mx.toNat ∧
      (players.take mx.toNat).get? (digitToInt d - 1).toNat = some p := by
  obtain ⟨hlen, hbound⟩ := ftpSeatLoop_spec _ _ _ _ _ hloop
  have h9 : players.length = 9 := by
    rw [hlen]; simpa using initSeats_length 9
  have hmx : 0 ≤ mx ∧ mx ≤ 9 := by
    rcases hbound mx rfl with h | h
    · cases h
    · simpa [initSeats_length] using h
  obtain ⟨p, hget, hgetq⟩ := pyListGet_ok_of_lt players (digitToInt d - 1)
    (by omega) (by omega)
  have htake : pySliceTo players mx = players.take mx.toNat :=
    pySliceTo_toNat _ _ (by omega)
  refine ⟨p, hgetq, ?_, ?_, ?_⟩
  · unfold ftpParseSeatsStage
    rw [hloop]
    dsimp only
    rw [htake, odFromPairs_self _ hnd, hbl]
    dsimp only
    rw [hbm]
    dsimp only
    rw [hget]
  · rw [List.length_take]; omega
  · rw [get?_take_lt players mx.toNat _ (by omega)]
    exact hgetq

theorem pkrSeatsInvariant (r : PkrRec) (players : List (Line × Rat))
    (mx : Int) (brow : Line) (bs : Int)
    (hloop : pkrSeatLoop (initSeats 10) none (pySliceFrom r.splitted 10) =
      .ok (players, some mx))
    (hnd : ((players.take mx.toNat).map Prod.fst).Nodup)
    (hbl : (do
        let s0 ← pyListGet r.sections 0
        pyListGet r.splitted (s0 + 1)) = Except.ok brow)
    (hbm : pyInt (pySliceFrom brow (-2)) = Except.ok bs)
    (hd1 : 1 ≤ bs) (hd2 : bs ≤ mx) :
    ∃ p, players.get? (bs - 1).toNat = some p ∧
      pkrParseSeatsStage r = ({ r with max_players := some mx, players := some (players.take mx.toNat), button_seat := some bs, button := some p.1 }, .ok ()) ∧
      (players.take mx.toNat).length = mx.toNat ∧
      (players.take mx.toNat).get? (bs - 1).toNat = some p := by
  obtain ⟨hlen, hbound⟩ := pkrSeatLoop_spec _ _ _ _ _ hloop
  have h10 : players.length = 10 := by
    rw [hlen]; simpa using initSeats_length 10
  have hmx : 0 ≤ mx ∧ mx ≤ 10 := by
    rcases hbound mx rfl with h | h
    · cases h
    · simpa [initSeats_length] using h
  obtain ⟨p, hget, hgetq⟩ := pyListGet_ok_of_lt players (bs - 1)
    (by omega) (by omega)
  have htake : pySliceTo players mx = players.take mx.toNat :=
    pySliceTo_toNat _ _ (by omega)
  refine ⟨p, hgetq, ?_, ?_, ?_⟩
  · unfold pkrParseSeatsStage
    rw [hloop]
    dsimp only
    rw [htake, odFromPairs_self _ hnd, hbl]
    dsimp only
    rw [hbm]
    dsimp only
    rw [hget]
  · rw [List.length_take]; omega
  · rw [get?_take_lt players mx.toNat _ (by omega)]
    exact hgetq

theorem ftpHeroInvariant (r r2 : FtpRec)
    (h : ftpParseHoleStage r = (r2, .ok ())) :
    ∃ ps hs hero, r.players = some ps ∧ r2.hero_seat = some hs ∧
      r2.hero = some hero ∧ 1 ≤ hs ∧
      (ps.map Prod.fst).get? (hs - 1).toNat = some hero := by
  unfold ftpParseHoleStage at h
  split at h
  · cases h
  · next line hline =>
    split at h
    · cases h
    · next name c1 c2 hmatch =>
      dsimp only at h
      split at h
      · cases h
      · next hs hdo =>
        cases h
        cases hps : r.players with
        | none => rw [hps] at hdo; cases hdo
        | some ps =>
          rw [hps] at hdo
          have hdo2 : keysIndexSucc ps name = .ok hs := hdo
          obtain ⟨hge, hget⟩ := keysIndexSucc_spec ps name hs hdo2
          exact ⟨ps, hs, name, rfl, rfl, rfl, hge, hget⟩

theorem pkrHeroInvariant (r r2 : PkrRec)
    (h : pkrParseHeroStage r = (r2, .ok ())) :
    ∃ ps hs hero, r.players = some ps ∧ r2.hero_seat = some hs ∧
      r2.hero = some hero ∧ 1 ≤ hs ∧
      (ps.map Prod.fst).get? (hs - 1).toNat = some hero := by
  unfold pkrParseHeroStage at h
  split at h
  · cases h
  · next line hline =>
    split at h
    · cases h
    · next g1 g2 name hmatch =>
      dsimp only at h
      split at h
      · cases h
      · next hs hdo =>
        cases h
        cases hps : r.players with
        | none => rw [hps] at hdo; cases hdo
        | some ps =>
          rw [hps] at hdo
          have hdo2 : keysIndexSucc ps name = .ok hs := hdo
          obtain ⟨hge, hget⟩ := keysIndexSucc_spec ps name hs hdo2
          exact ⟨ps, hs, name, rfl, rfl, rfl, hge, hget⟩

/-- C3 (amended: the spec invariant holds whenever the seat names are
pairwise distinct and the referenced seats are in range; the unamended
claim fails on duplicate names, which collapse the ordered name-keyed
mapping). For each room: when the seat-parsing stage succeeds, the stored
players sequence has length `max_players`, the entry at index
`button_seat - 1` carries the name stored in `button`; and when the
hole-cards stage succeeds, the name at index `hero_seat - 1` of the
players sequence equals `hero`. -/
theorem seat_invariants :
    (∀ (r : StarsRec) (ps : List (Line × Rat)) (bs : Int),
      starsSeatList r = .ok ps → (ps.map Prod.fst).Nodup →
      r.button_seat = some bs → 1 ≤ bs → bs ≤ ps.length →
      ∃ p, ps.get? (bs - 1).toNat = some p ∧
        starsParseSeatsStage r = ({ r with button := some p.1, players := some ps }, .ok ()) ∧
        ∃ mx, r.max_players = some mx ∧ ps.length = mx.toNat) ∧
    (∀ (r r2 : StarsRec), starsParseHoleStage r = (r2, .ok ()) →
      ∃ ps hs hero, r.players = some ps ∧ r2.hero_seat = some hs ∧
        r2.hero = some hero ∧ 1 ≤ hs ∧
        (ps.map Prod.fst).get? (hs - 1).toNat = some hero) ∧
    (∀ (r : FtpRec) (players : List (Line × Rat)) (mx : Int)
      (bline : Line) (d : Char),
      ftpSeatLoop (initSeats 9) none (pySliceFrom r.splitted 1) =
        .ok (players, some mx) →
      ((players.take mx.toNat).map Prod.fst).Nodup →
      (do
        let s0 ← pyListGet r.sections 0
        pyListGet r.splitted (s0 - 1)) = Except.ok bline →
      ftpButtonMatch bline = some d →
      1 ≤ digitToInt d → digitToInt d ≤ mx →
      ∃ p, players.get? (digitToInt d - 1).toNat = some p ∧
        ftpParseSeatsStage r = ({ r with max_players := some mx, players := some (players.take mx.toNat), button_seat := some (digitToInt d), button := some p.1 }, .ok ()) ∧
        (players.take mx.toNat).length = mx.toNat ∧
        (players.take mx.toNat).get? (digitToInt d - 1).toNat = some p) ∧
    (∀ (r r2 : FtpRec), ftpParseHoleStage r = (r2, .ok ()) →
      ∃ ps hs hero, r.players = some ps ∧ r2.hero_seat = some hs ∧
        r2.hero = some hero ∧ 1 ≤ hs ∧
        (ps.map Prod.fst).get? (hs - 1).toNat = some hero) ∧
    (∀ (r : PkrRec) (players : List (Line × Rat)) (mx : Int)
      (brow : Line) (bs : Int),
      pkrSeatLoop (initSeats 10) none (pySliceFrom r.splitted 10) =
        .ok (players, some mx) →
      ((players.take mx.toNat).map Prod.fst).Nodup →
      (do
        let s0 ← pyListGet r.sections 0
        pyListGet r.splitted (s0 + 1)) = Except.ok brow →
      pyInt (pySliceFrom brow (-2)) = Except.ok bs →
      1 ≤ bs → bs ≤ mx →
      ∃ p, players.get? (bs - 1).toNat = some p ∧
        pkrParseSeatsStage r = ({ r with max_players := some mx, players := some (players.take mx.toNat), button_seat := some bs, button := some p.1 }, .ok ()) ∧
        (players.take mx.toNat).length = mx.toNat ∧
        (players.take mx.toNat).get? (bs - 1).toNat = some p) ∧
    (∀ (r r2 : PkrRec), pkrParseHeroStage r = (r2, .ok ()) →
      ∃ ps hs hero, r.players = some ps ∧ r2.hero_seat = some hs ∧
        r2.hero = some hero ∧ 1 ≤ hs ∧
        (ps.map Prod.fst).get? (hs - 1).toNat = some hero) :=
  ⟨starsSeatsInvariant, starsHeroInvariant, ftpSeatsInvariant,
    ftpHeroInvariant, pkrSeatsInvariant, pkrHeroInvariant⟩

set_option maxRecDepth 100000 in
/-- Instantiation of the PokerStars clause of the seat invariants on a
concrete two-seat record. -/
theorem seat_invariants_witness :
    starsSeatList c3WitRec = .ok c3Ps ∧
    (∃ p, c3Ps.get? ((2:Int) - 1).toNat = some p ∧
      starsParseSeatsStage c3WitRec = ({ c3WitRec with button := some p.1, players := some c3Ps }, .ok ()) ∧
      ∃ mx, c3WitRec.max_players = some mx ∧ c3Ps.length = mx.toNat) :=
  ⟨rfl, seat_invariants.1 c3WitRec c3Ps 2 rfl (by decide) rfl (by decide)
    (by decide)⟩

